import Mathlib

/-!
# bosh-bootloader: state store, director client, state queries and key pair updater

A shallow embedding of `storage/state.go`, `storage/jumpbox.go`, `bosh/client.go`,
`commands/state_query.go` and `gcp/key_pair_updater.go`, followed by theorems about
them.

Conventions of the embedding:

* a Go `error` is its message (`String`); `nil` is `none`;
* a Go `map[string]interface{}` and a Go slice are `Option`s of lists, `none`
  being the `nil` map or slice, so that `reflect.DeepEqual` against the zero value
  is structural equality with `none`;
* the file system, the UUID generator, the JSON hooks and the collaborators are
  explicit arguments; every function returns the new world next to its Go results;
* a call that can panic returns a `Go.Outcome`.
-/

namespace Storage

/-! ## Data model (`storage/state.go`, `storage/jumpbox.go`) -/

/-- A value held behind `interface{}` in a decoded JSON object. -/
inductive Value where
  | null : Value
  | bool (b : Bool) : Value
  | number (n : Int) : Value
  | string (s : String) : Value
  | array (xs : List Value) : Value
  | object (kvs : List (String × Value)) : Value

/-- Go `map[string]interface{}`; `none` is the `nil` map. -/
abbrev GoMap := Option (List (String × Value))

/-- Struct `AWS`. -/
structure AWS where
  AccessKeyID : String
  SecretAccessKey : String
  Region : String

/-- Struct `Azure`. -/
structure Azure where
  SubscriptionID : String
  TenantID : String
  ClientID : String
  ClientSecret : String

/-- Struct `GCP`; `Zones` is a slice, `none` when `nil`. -/
structure GCP where
  ServiceAccountKey : String
  ProjectID : String
  Zone : String
  Region : String
  Zones : Option (List String)

/-- Struct `Stack`. -/
structure Stack where
  Name : String
  LBType : String
  CertificateName : String
  BOSHAZ : String

/-- Struct `LB`; the field `Type` is spelled `Type_`, `Type` being reserved. -/
structure LB where
  Type_ : String
  Cert : String
  Key : String
  Chain : String
  Domain : String

/-- Modelled from the spec: the declaration of `storage.KeyPair` is not among the
sources; the spec gives it as the generated private and public key material, and
`gcp/key_pair_updater.go` builds it from exactly these two fields. -/
structure KeyPair where
  PrivateKey : String
  PublicKey : String

/-- Struct `Jumpbox` (`storage/jumpbox.go`). -/
structure Jumpbox where
  Enabled : Bool
  URL : String
  Variables : String
  Manifest : String
  State : GoMap

/-- Modelled from the spec: the declaration of `storage.BOSH` is not among the
sources; the spec lists name, username, password, address, TLS CA, certificate and
key, deployment state blob, rendered manifest and user-supplied ops-file contents,
and `commands/gcp_up_test.go` and `commands/state_query.go` use these field names. -/
structure BOSH where
  DirectorName : String
  DirectorUsername : String
  DirectorPassword : String
  DirectorAddress : String
  DirectorSSLCA : String
  DirectorSSLCertificate : String
  DirectorSSLPrivateKey : String
  State : GoMap
  Variables : String
  Manifest : String
  UserOpsFile : String

/-- Struct `State`, the persisted document. -/
structure State where
  Version : Int
  IAAS : String
  ID : String
  NoDirector : Bool
  MigratedFromCloudFormation : Bool
  AWS : AWS
  Azure : Azure
  GCP : GCP
  KeyPair : KeyPair
  Jumpbox : Jumpbox
  BOSH : BOSH
  Stack : Stack
  EnvID : String
  TFState : String
  LB : LB
  LatestTFOutput : String

/-- Constant `STATE_VERSION`. -/
def STATE_VERSION : Int := 10

/-- Constant `StateFileName`. -/
def StateFileName : String := "bbl-state.json"

/-! ### Zero values and `reflect.DeepEqual` against them -/

/-- The literal `AWS{}`. -/
def AWS.zero : AWS := ⟨"", "", ""⟩

/-- The literal `Azure{}`. -/
def Azure.zero : Azure := ⟨"", "", "", ""⟩

/-- The literal `GCP{}`. -/
def GCP.zero : GCP := ⟨"", "", "", "", none⟩

/-- The literal `Stack{}`. -/
def Stack.zero : Stack := ⟨"", "", "", ""⟩

/-- The literal `LB{}`. -/
def LB.zero : LB := ⟨"", "", "", "", ""⟩

/-- The literal `KeyPair{}`. -/
def KeyPair.zero : KeyPair := ⟨"", ""⟩

/-- The literal `Jumpbox{}`. -/
def Jumpbox.zero : Jumpbox := ⟨false, "", "", "", none⟩

/-- The literal `BOSH{}`. -/
def BOSH.zero : BOSH := ⟨"", "", "", "", "", "", "", none, "", "", ""⟩

/-- The literal `State{}`. -/
def State.zero : State :=
  { Version := 0, IAAS := "", ID := "", NoDirector := false,
    MigratedFromCloudFormation := false, AWS := AWS.zero, Azure := Azure.zero,
    GCP := GCP.zero, KeyPair := KeyPair.zero, Jumpbox := Jumpbox.zero,
    BOSH := BOSH.zero, Stack := Stack.zero, EnvID := "", TFState := "",
    LB := LB.zero, LatestTFOutput := "" }

/-- Computes `reflect.DeepEqual(a, AWS{})`. -/
def AWS.isZero (a : AWS) : Bool :=
  a.AccessKeyID == "" && a.SecretAccessKey == "" && a.Region == ""

/-- Computes `reflect.DeepEqual(a, Azure{})`. -/
def Azure.isZero (a : Azure) : Bool :=
  a.SubscriptionID == "" && a.TenantID == "" && a.ClientID == "" && a.ClientSecret == ""

/-- Computes `reflect.DeepEqual(g, GCP{})`: a non-nil empty `Zones` slice is not
deeply equal to the nil one. -/
def GCP.isZero (g : GCP) : Bool :=
  g.ServiceAccountKey == "" && g.ProjectID == "" && g.Zone == "" && g.Region == ""
    && g.Zones.isNone

/-- Computes `reflect.DeepEqual(s, Stack{})`. -/
def Stack.isZero (s : Stack) : Bool :=
  s.Name == "" && s.LBType == "" && s.CertificateName == "" && s.BOSHAZ == ""

/-- Computes `reflect.DeepEqual(l, LB{})`. -/
def LB.isZero (l : LB) : Bool :=
  l.Type_ == "" && l.Cert == "" && l.Key == "" && l.Chain == "" && l.Domain == ""

/-- Computes `reflect.DeepEqual(k, KeyPair{})`. -/
def KeyPair.isZero (k : KeyPair) : Bool :=
  k.PrivateKey == "" && k.PublicKey == ""

/-- Method `Jumpbox.IsEmpty`: `reflect.DeepEqual(j, Jumpbox{})`. -/
def Jumpbox.IsEmpty (j : Jumpbox) : Bool :=
  !j.Enabled && j.URL == "" && j.Variables == "" && j.Manifest == "" && j.State.isNone

/-- Computes `reflect.DeepEqual(b, BOSH{})`. -/
def BOSH.isZero (b : BOSH) : Bool :=
  b.DirectorName == "" && b.DirectorUsername == "" && b.DirectorPassword == ""
    && b.DirectorAddress == "" && b.DirectorSSLCA == "" && b.DirectorSSLCertificate == ""
    && b.DirectorSSLPrivateKey == "" && b.State.isNone && b.Variables == ""
    && b.Manifest == "" && b.UserOpsFile == ""

/-- Computes `reflect.DeepEqual(state, State{})`, field by field. -/
def State.isZero (s : State) : Bool :=
  s.Version == 0 && s.IAAS == "" && s.ID == "" && !s.NoDirector
    && !s.MigratedFromCloudFormation && s.AWS.isZero && s.Azure.isZero && s.GCP.isZero
    && s.KeyPair.isZero && s.Jumpbox.IsEmpty && s.BOSH.isZero && s.Stack.isZero
    && s.EnvID == "" && s.TFState == "" && s.LB.isZero && s.LatestTFOutput == ""

/-- Method `GCP.Empty`. -/
def GCP.Empty (g : GCP) : Bool :=
  g.ServiceAccountKey == "" && g.ProjectID == "" && g.Region == "" && g.Zone == ""

/-! ## The file system and the package-level hooks -/

/-- An error returned by package `os`: its message, and whether `os.IsNotExist`
holds of it. -/
structure OSError where
  msg : String
  notExist : Bool

/-- A file path kept in split form: the directory and the file's base name.
`filepath.Join(dir, name)` and `filepath.Dir` are the constructor and the first
projection; path cleaning is not modelled. -/
structure Path where
  dir : String
  base : String
  deriving DecidableEq

/-- Library function `filepath.Join(dir, name)` for a base name `name`. -/
def filepathJoin (dir name : String) : Path := ⟨dir, name⟩

/-- Library function `filepath.Dir`. -/
def filepathDir (p : Path) : String := p.dir

/-- The path as text, for error messages. -/
def Path.text (p : Path) : String := p.dir ++ "/" ++ p.base

/-- A UUID of `github.com/nu7hatch/gouuid`, known through its `String()` form. -/
structure UUID where
  String : String

/-- What the code reads from its surroundings and does not change: the outcome of
`os.Stat` on each directory, the faults the operating system injects into
`os.Open`, `os.Remove` and `ioutil.WriteFile`, the successive results of the hook
`uuidNewV4`, the hook `marshalIndent`, and `json.NewDecoder(file).Decode(&state)`
as a function of the file's contents (the state it leaves behind and the error). -/
structure Env (β : Type) where
  stat : String → Option OSError
  openFault : Path → Option OSError
  removeFault : Path → Option OSError
  writeFault : Path → Option OSError
  uuidNewV4 : Nat → Except String UUID
  marshalIndent : State → Except String β
  decode : β → State × Option String

/-- A file-system operation issued by the store. -/
inductive Op (β : Type) where
  | remove (p : Path) : Op β
  | write (p : Path) (data : β) : Op β

/-- What the code changes: the contents of the files, the number of calls made to
`uuidNewV4` so far, and the file-system operations issued so far, oldest first. -/
structure World (β : Type) where
  files : Path → Option β
  uuidCalls : Nat
  log : List (Op β)

variable {β : Type}

/-- Library function `os.Open`, returning the contents of the opened file. -/
def osOpen (env : Env β) (p : Path) (w : World β) : Except OSError β :=
  match env.openFault p with
  | some err => .error err
  | none =>
    match w.files p with
    | none => .error ⟨"open " ++ p.text ++ ": no such file or directory", true⟩
    | some data => .ok data

/-- Library function `os.Remove`. -/
def osRemove (env : Env β) (p : Path) (w : World β) : Option OSError × World β :=
  let w := { w with log := w.log ++ [Op.remove p] }
  match env.removeFault p with
  | some err => (some err, w)
  | none =>
    match w.files p with
    | none => (some ⟨"remove " ++ p.text ++ ": no such file or directory", true⟩, w)
    | some _ => (none, { w with files := fun q => if q = p then none else w.files q })

/-- Library function `ioutil.WriteFile`; a failed write leaves the file as it was. -/
def ioutilWriteFile (env : Env β) (p : Path) (data : β) (w : World β) :
    Option OSError × World β :=
  let w := { w with log := w.log ++ [Op.write p data] }
  match env.writeFault p with
  | some err => (some err, w)
  | none => (none, { w with files := fun q => if q = p then some data else w.files q })

/-- One call of the hook `uuidNewV4`. -/
def uuidNewV4 (env : Env β) (w : World β) : Except String UUID × World β :=
  (env.uuidNewV4 w.uuidCalls, { w with uuidCalls := w.uuidCalls + 1 })

/-! ## The store (`storage/state.go`) -/

/-- Struct `Store`. -/
structure Store where
  version : Int
  stateFile : Path

/-- Function `NewStore`. -/
def NewStore (dir : String) : Store :=
  { version := STATE_VERSION, stateFile := filepathJoin dir StateFileName }

/-- Method `Store.Set`: the returned error and the world it leaves. -/
def Store.Set (env : Env β) (s : Store) (state : State) (w : World β) :
    Option String × World β :=
  match env.stat (filepathDir s.stateFile) with
  | some err => (some err.msg, w)
  | none =>
    if state.isZero then
      match osRemove env s.stateFile w with
      | (some err, w) => if !err.notExist then (some err.msg, w) else (none, w)
      | (none, w) => (none, w)
    else
      let state := { state with Version := s.version }
      let assigned : Except String State × World β :=
        if state.ID == "" then
          match uuidNewV4 env w with
          | (.error err, w) => (.error ("Create state ID: " ++ err), w)
          | (.ok uuid, w) => (.ok { state with ID := uuid.String }, w)
        else (.ok state, w)
      match assigned with
      | (.error err, w) => (some err, w)
      | (.ok state, w) =>
        let state := { state with AWS := { state.AWS with AccessKeyID := "" } }
        let state := { state with AWS := { state.AWS with SecretAccessKey := "" } }
        let state := { state with GCP := { state.GCP with ServiceAccountKey := "" } }
        let state := { state with GCP := { state.GCP with ProjectID := "" } }
        match env.marshalIndent state with
        | .error err => (some err, w)
        | .ok jsonData =>
          match ioutilWriteFile env s.stateFile jsonData w with
          | (some err, w) => (some err.msg, w)
          | (none, w) => (none, w)

/-- The message of the error `GetState` returns for a version below 3. -/
def incompatibleMessage : String :=
  "Existing bbl environment is incompatible with bbl v3. Create a new environment with v3 to continue."

/-- The message of the error `GetState` returns for a version above `STATE_VERSION`:
the format string with `%d` filled in. -/
def newerVersionMessage (version : Int) : String :=
  "Existing bbl environment was created with a newer version of bbl. Please upgrade to a version of bbl compatible with schema version "
    ++ toString version ++ ".\n"

/-- Function `GetState`: the returned state and error. -/
def GetState (env : Env β) (dir : String) (w : World β) : State × Option String :=
  let state := State.zero
  match env.stat dir with
  | some err => (state, some err.msg)
  | none =>
    match osOpen env (filepathJoin dir StateFileName) w with
    | .error err => if err.notExist then (state, none) else (state, some err.msg)
    | .ok file =>
      match env.decode file with
      | (state, some err) => (state, some err)
      | (state, none) =>
        let emptyState := State.zero
        let state := if state.isZero then { emptyState with Version := STATE_VERSION } else state
        if state.Version < 3 then (state, some incompatibleMessage)
        else if state.Version > STATE_VERSION then (state, some (newerVersionMessage state.Version))
        else (state, none)

/-- The document `Store.Set` hands to `marshalIndent` once the ID is settled to `id`:
the effect of the assignments of `Store.Set` on its copy of the state. -/
def Store.document (s : Store) (state : State) (id : String) : State :=
  { state with
    Version := s.version, ID := id,
    AWS := { state.AWS with AccessKeyID := "", SecretAccessKey := "" },
    GCP := { state.GCP with ServiceAccountKey := "", ProjectID := "" } }

/-! ### Concrete surroundings used to run the definitions -/

/-- Surroundings without faults in which a file holds the marshalled document itself
and the UUID generator returns a new value at every call. -/
def plainEnv : Env State :=
  { stat := fun _ => none
    openFault := fun _ => none
    removeFault := fun _ => none
    writeFault := fun _ => none
    uuidNewV4 := fun n =>
      if n = 0 then .ok ⟨"6ba7b810-9dad-41d1-80b4-00c04fd430c8"⟩
      else .ok ⟨"6ba7b811-9dad-41d1-80b4-00c04fd430c8"⟩
    marshalIndent := fun doc => .ok doc
    decode := fun doc => (doc, none) }

/-- Surroundings as `plainEnv` except that the UUID generator fails. -/
def noUUIDEnv : Env State :=
  { plainEnv with uuidNewV4 := fun _ => .error "entropy exhausted" }

/-- A world with no file, no UUID generated and nothing done yet. -/
def emptyWorld : World State := { files := fun _ => none, uuidCalls := 0, log := [] }

/-- A world whose only file is `some-dir/bbl-state.json`, holding `doc`. -/
def worldWith (doc : State) : World State :=
  { files := fun q => if q = filepathJoin "some-dir" StateFileName then some doc else none
    uuidCalls := 0, log := [] }

/-- A state with every secret of the IAAS configuration populated and no ID. -/
def secretState : State :=
  { State.zero with
    IAAS := "azure"
    AWS := { AccessKeyID := "some-access-key-id", SecretAccessKey := "some-secret-access-key",
             Region := "some-region" }
    Azure := { SubscriptionID := "subscription-id", TenantID := "tenant-id",
               ClientID := "client-id", ClientSecret := "client-secret" }
    GCP := { ServiceAccountKey := "some-service-account-key", ProjectID := "some-project-id",
             Zone := "some-zone", Region := "some-region", Zones := none } }

/-- A state whose only non-zero field is `Version`. -/
def versionOnlyState (version : Int) : State := { State.zero with Version := version }

/-- A state whose only non-zero field is one secret. -/
def singleSecretState : State :=
  { State.zero with AWS := { AWS.zero with SecretAccessKey := "some-secret-access-key" } }

/-- A state whose only non-zero fields are `ID` and `EnvID`. -/
def namedState : State := { State.zero with ID := "some-state-id", EnvID := "some-env-id" }

end Storage

namespace Go

/-- How a Go call ends: it returns its results, or the runtime panics. -/
inductive Outcome (α : Type) where
  | returned (results : α) : Outcome α
  | panicked (reason : String) : Outcome α

/-- The runtime's message for a dereference of a `nil` pointer. -/
def nilDereference : String :=
  "runtime error: invalid memory address or nil pointer dereference"

end Go

namespace Bosh

/-! ## The director client's retry loop (`bosh/client.go`) -/

/-- The parts of `http.Request` the client sets. -/
structure Request where
  Method : String
  URL : String
  Body : String
  Header : List (String × String)

/-- The parts of `http.Response` the client reads. -/
structure Response where
  StatusCode : Int
  Body : String

/-- The literal `http.Response{}`. -/
def Response.zero : Response := ⟨0, ""⟩

/-- An `*http.Client`: what its `Do` returns, as a function of the number of calls
made before and of the request. `none` is the `nil` response or error. -/
structure HTTPClient where
  Do : Nat → Request → Option Response × Option String

/-- Something the retry loop does that the outside can observe. -/
inductive Event where
  | request (n : Nat) : Event
  | sleep (d : Int) : Event
  deriving DecidableEq

/-- The world of the client: how many times `Do` was called, and what happened so
far, oldest first. -/
structure Net where
  calls : Nat
  trace : List Event

/-- Variable `MAX_RETRIES` as initialised. -/
def MAX_RETRIES : Int := 5

/-- Variable `RETRY_DELAY` as initialised: `10 * time.Second`, in nanoseconds. -/
def RETRY_DELAY : Int := 10 * 1000000000

/-- Method `httpClient.Do(request)`. -/
def HTTPClient.call (httpClient : HTTPClient) (request : Request) (w : Net) :
    (Option Response × Option String) × Net :=
  (httpClient.Do w.calls request,
    { calls := w.calls + 1, trace := w.trace ++ [Event.request w.calls] })

/-- Library function `time.Sleep`. -/
def timeSleep (d : Int) (w : Net) : Net :=
  { w with trace := w.trace ++ [Event.sleep d] }

/-- The `for` loop of `makeRequests` with the given number of iterations left;
`cur` holds the variables `response` and `err`. -/
def makeRequests.loop (retryDelay : Int) (httpClient : HTTPClient) (request : Request) :
    Nat → Option Response × Option String → Net → (Option Response × Option String) × Net
  | 0, cur, w => (cur, w)
  | left + 1, _, w =>
    match httpClient.call request w with
    | ((response, none), w) => ((response, none), w)
    | ((response, some err), w) =>
      makeRequests.loop retryDelay httpClient request left (response, some err)
        (timeSleep retryDelay w)

/-- Function `makeRequests`, with the variables `MAX_RETRIES` and `RETRY_DELAY` it
reads as arguments. The loop `for i := 0; i < MAX_RETRIES; i++` runs at most
`MAX_RETRIES` times, none when that is not positive. -/
def makeRequests (maxRetries retryDelay : Int) (httpClient : HTTPClient) (request : Request)
    (w : Net) : (Option Response × Option String) × Net :=
  match makeRequests.loop retryDelay httpClient request maxRetries.toNat (none, none) w with
  | ((_, some err), w) =>
    ((some Response.zero,
      some ("made " ++ toString maxRetries ++ " attempts, last error: " ++ err)), w)
  | ((response, none), w) => ((response, none), w)

/-! ## The director client (`bosh/client.go`) -/

/-- Struct `Info`. -/
structure Info where
  Name : String
  UUID : String
  Version : String

/-- The literal `Info{}`. -/
def Info.zero : Info := ⟨"", "", ""⟩

/-- Struct `client`. -/
structure client where
  directorAddress : String
  username : String
  password : String
  caCert : String
  httpClient : HTTPClient

/-- Function `NewClient`. -/
def NewClient (httpClient : HTTPClient) (directorAddress username password caCert : String) :
    client :=
  { directorAddress := directorAddress, username := username, password := password,
    caCert := caCert, httpClient := httpClient }

/-- The fields of `clientcredentials.Config` the client sets. -/
structure Config where
  ClientID : String
  ClientSecret : String
  TokenURL : String

/-- The library functions the client calls, which are not part of this repository:
`http.NewRequest(method, url, body)`, `url.Parse` (reduced to the `Host` of its result),
`net.SplitHostPort`, `conf.Client(ctx)` for a context that carries an HTTP client,
`http.StatusText`, and `json.NewDecoder(body).Decode(&info)`. -/
structure Lib where
  newRequest : String → String → String → Except String Request
  urlParseHost : String → Except String String
  splitHostPort : String → Except String (String × String)
  confClient : Config → HTTPClient → HTTPClient
  statusText : Int → String
  decodeInfo : String → Except String Info

/-- Constant `http.StatusOK`. -/
def StatusOK : Int := 200

/-- Constant `http.StatusCreated`. -/
def StatusCreated : Int := 201

/-- The error both methods build for an unexpected status:
`fmt.Errorf("unexpected http response %d %s", code, http.StatusText(code))`. -/
def unexpectedResponse (lib : Lib) (code : Int) : String :=
  "unexpected http response " ++ toString code ++ " " ++ lib.statusText code

/-- Method `Header.Set`. -/
def headerSet (header : List (String × String)) (key value : String) :
    List (String × String) :=
  header.filter (fun kv => kv.1 != key) ++ [(key, value)]

/-- Method `client.Info`, with the variables `MAX_RETRIES` and `RETRY_DELAY` as
arguments. Reading `response.StatusCode` through a `nil` response panics. -/
def client.Info (lib : Lib) (maxRetries retryDelay : Int) (c : client) (w : Net) :
    Go.Outcome (Info × Option String) × Net :=
  match lib.newRequest "GET" (c.directorAddress ++ "/info") "" with
  | .error err => (.returned (Info.zero, some err), w)
  | .ok request =>
    match makeRequests maxRetries retryDelay c.httpClient request w with
    | ((_, some err), w) => (.returned (Info.zero, some err), w)
    | ((none, none), w) => (.panicked Go.nilDereference, w)
    | ((some response, none), w) =>
      if response.StatusCode != StatusOK then
        (.returned (Info.zero, some (unexpectedResponse lib response.StatusCode)), w)
      else
        match lib.decodeInfo response.Body with
        | .error err => (.returned (Info.zero, some err), w)
        | .ok info => (.returned (info, none), w)

/-- Method `client.UpdateCloudConfig`, with the variables `MAX_RETRIES` and
`RETRY_DELAY` as arguments; `yaml` is the request body. -/
def client.UpdateCloudConfig (lib : Lib) (maxRetries retryDelay : Int) (c : client)
    (yaml : String) (w : Net) : Go.Outcome (Option String) × Net :=
  match lib.newRequest "POST" (c.directorAddress ++ "/cloud_configs") yaml with
  | .error err => (.returned (some err), w)
  | .ok request =>
    let request := { request with Header := headerSet request.Header "Content-Type" "text/yaml" }
    match lib.urlParseHost c.directorAddress with
    | .error err => (.returned (some err), w)
    | .ok host =>
      match lib.splitHostPort host with
      | .error err => (.returned (some err), w)
      | .ok (boshHost, _) =>
        let conf : Config :=
          { ClientID := c.username, ClientSecret := c.password,
            TokenURL := "https://" ++ boshHost ++ ":8443/oauth/token" }
        let httpClient := lib.confClient conf c.httpClient
        match makeRequests maxRetries retryDelay httpClient request w with
        | ((_, some err), w) => (.returned (some err), w)
        | ((none, none), w) => (.panicked Go.nilDereference, w)
        | ((some response, none), w) =>
          if response.StatusCode != StatusCreated then
            (.returned (some (unexpectedResponse lib response.StatusCode)), w)
          else (.returned none, w)

/-! ### Concrete clients used to run the definitions -/

/-- An excerpt of the table behind `http.StatusText`. -/
def statusTextExcerpt (code : Int) : String :=
  if code = 200 then "OK"
  else if code = 201 then "Created"
  else if code = 401 then "Unauthorized"
  else if code = 404 then "Not Found"
  else if code = 500 then "Internal Server Error"
  else ""

/-- Library functions that build every request, read `director:25555` as the host of
every address, hand the context's client back as the OAuth client and decode every
body to the same director info. -/
def plainLib : Lib :=
  { newRequest := fun method url body =>
      .ok { Method := method, URL := url, Body := body, Header := [] }
    urlParseHost := fun _ => .ok "director:25555"
    splitHostPort := fun _ => .ok ("director", "25555")
    confClient := fun _ httpClient => httpClient
    statusText := statusTextExcerpt
    decodeInfo := fun _ => .ok ⟨"some-bosh-director", "some-uuid", "some-version"⟩ }

/-- A client whose every call is answered by the director with status 500. -/
def failingDirector : HTTPClient :=
  { Do := fun _ _ => (some ⟨500, "some-body"⟩, none) }

/-- A request as `Info` builds it. -/
def infoRequest : Request :=
  { Method := "GET", URL := "https://director:25555/info", Body := "", Header := [] }

/-- A client whose first two calls fail in transport and whose later calls return
a 200 response. -/
def flakyClient : HTTPClient :=
  { Do := fun n _ =>
      if n < 2 then (none, some "connection refused") else (some ⟨200, "some-body"⟩, none) }

/-- A client all of whose calls fail in transport. -/
def deadClient : HTTPClient :=
  { Do := fun _ _ => (none, some "connection refused") }

/-- A world in which nothing has happened yet. -/
def freshNet : Net := { calls := 0, trace := [] }

end Bosh

namespace Commands

open Storage

/-! ## State queries (`commands/state_query.go`) -/

/-- Constant `EnvIDCommand`. -/
def EnvIDCommand : String := "env-id"

/-- Constant `JumpboxAddressCommand`. -/
def JumpboxAddressCommand : String := "jumpbox-address"

/-- Constant `DirectorUsernameCommand`. -/
def DirectorUsernameCommand : String := "director-username"

/-- Constant `DirectorPasswordCommand`. -/
def DirectorPasswordCommand : String := "director-password"

/-- Constant `DirectorAddressCommand`. -/
def DirectorAddressCommand : String := "director-address"

/-- Constant `DirectorCACertCommand`. -/
def DirectorCACertCommand : String := "director-ca-cert"

/-- Constant `EnvIDPropertyName`. -/
def EnvIDPropertyName : String := "environment id"

/-- Constant `JumpboxAddressPropertyName`. -/
def JumpboxAddressPropertyName : String := "jumpbox address"

/-- Constant `DirectorUsernamePropertyName`. -/
def DirectorUsernamePropertyName : String := "director username"

/-- Constant `DirectorPasswordPropertyName`. -/
def DirectorPasswordPropertyName : String := "director password"

/-- Constant `DirectorAddressPropertyName`. -/
def DirectorAddressPropertyName : String := "director address"

/-- Constant `DirectorCACertPropertyName`. -/
def DirectorCACertPropertyName : String := "director ca cert"

/-- Modelled from the spec: the declaration of the stack `infrastructureManager.Describe`
returns is not among the sources; the spec speaks of infrastructure outputs, and
`getEIP` returns `stack.Outputs["BOSHEIP"]` as a string, so `Outputs` is a
`map[string]string`, given here by its entries. -/
structure DescribedStack where
  Name : String
  Outputs : List (String × String)

/-- Indexing `m[key]` of a `map[string]string`: the zero value for a missing key. -/
def mapIndex (m : List (String × String)) (key : String) : String :=
  (m.lookup key).getD ""

/-- Indexing `m[key]` of a `map[string]interface{}`: the `nil` interface, `none`, for
a missing key or a stored `nil`. -/
def outputsIndex (m : List (String × Value)) (key : String) : Option Value :=
  match m.lookup key with
  | none => none
  | some Value.null => none
  | some v => some v

/-- The name the runtime prints for the dynamic type of a decoded JSON value. -/
def dynamicTypeName : Option Value → String
  | none => "nil"
  | some Value.null => "nil"
  | some (Value.bool _) => "bool"
  | some (Value.number _) => "float64"
  | some (Value.string _) => "string"
  | some (Value.array _) => "[]interface {}"
  | some (Value.object _) => "map[string]interface {}"

/-- The single-value type assertion `x.(string)`: it panics unless `x` holds a string. -/
def assertString (x : Option Value) : Go.Outcome String :=
  match x with
  | some (Value.string s) => .returned s
  | other =>
    .panicked ("interface conversion: interface {} is " ++ dynamicTypeName other
      ++ ", not string")

/-- Struct `StateQuery`. The interfaces of its collaborators are declared outside the
sources at hand, so each collaborator is what the one method called on it returns:
`stateValidator.Validate()`, `terraformManager.GetOutputs(state)` and
`infrastructureManager.Describe(name)`; the logger is the list of lines printed, which
`Execute` takes and returns. -/
structure StateQuery where
  stateValidator : Option String
  terraformManager : State → Except String (List (String × Value))
  infrastructureManager : String → Except String DescribedStack
  propertyName : String

/-- Function `NewStateQuery`. -/
def NewStateQuery (stateValidator : Option String)
    (terraformManager : State → Except String (List (String × Value)))
    (infrastructureManager : String → Except String DescribedStack) (propertyName : String) :
    StateQuery :=
  { stateValidator := stateValidator, terraformManager := terraformManager,
    infrastructureManager := infrastructureManager, propertyName := propertyName }

/-- Method `StateQuery.CheckFastFails`. -/
def StateQuery.CheckFastFails (s : StateQuery) (_subcommandFlags : List String)
    (state : State) : Option String :=
  match s.stateValidator with
  | some err => some err
  | none =>
    if state.NoDirector && s.propertyName != DirectorAddressPropertyName
        && s.propertyName != EnvIDPropertyName then
      some "Error BBL does not manage this director."
    else none

/-- Method `StateQuery.getEIP`. -/
def StateQuery.getEIP (s : StateQuery) (state : State) : Go.Outcome (String × Option String) :=
  if state.Stack.Name != "" then
    match s.infrastructureManager state.Stack.Name with
    | .error err => .returned ("", some err)
    | .ok stack => .returned (mapIndex stack.Outputs "BOSHEIP", none)
  else
    match s.terraformManager state with
    | .error err => .returned ("", some err)
    | .ok terraformOutputs =>
      match assertString (outputsIndex terraformOutputs "external_ip") with
      | .panicked reason => .panicked reason
      | .returned externalIP => .returned (externalIP, none)

/-- Method `StateQuery.getDirectorAddress`. -/
def StateQuery.getDirectorAddress (s : StateQuery) (state : State) :
    Go.Outcome (String × Option String) :=
  if state.NoDirector then
    match s.getEIP state with
    | .panicked reason => .panicked reason
    | .returned (_, some err) => .returned ("", some err)
    | .returned (externalIP, none) => .returned ("https://" ++ externalIP ++ ":25555", none)
  else .returned (state.BOSH.DirectorAddress, none)

/-- The error `Execute` returns for an empty property value. -/
def couldNotRetrieve (propertyName : String) : String :=
  "Could not retrieve " ++ propertyName
    ++ ", please make sure you are targeting the proper state dir."

/-- Method `StateQuery.Execute`: how the call ends, and the lines printed so far. -/
def StateQuery.Execute (s : StateQuery) (_subcommandFlags : List String) (state : State)
    (printed : List String) : Go.Outcome (Option String) × List String :=
  let resolved : Go.Outcome (String × Option String) :=
    if s.propertyName == JumpboxAddressPropertyName then .returned (state.Jumpbox.URL, none)
    else if s.propertyName == DirectorAddressPropertyName then s.getDirectorAddress state
    else if s.propertyName == DirectorUsernamePropertyName then
      .returned (state.BOSH.DirectorUsername, none)
    else if s.propertyName == DirectorPasswordPropertyName then
      .returned (state.BOSH.DirectorPassword, none)
    else if s.propertyName == DirectorCACertPropertyName then
      .returned (state.BOSH.DirectorSSLCA, none)
    else if s.propertyName == EnvIDPropertyName then .returned (state.EnvID, none)
    else .returned ("", none)
  match resolved with
  | .panicked reason => (.panicked reason, printed)
  | .returned (_, some err) => (.returned (some err), printed)
  | .returned (propertyValue, none) =>
    if propertyValue == "" then (.returned (some (couldNotRetrieve s.propertyName)), printed)
    else (.returned none, printed ++ [propertyValue])

/-! ## Compound errors (spec §4.4 and §4.5) -/

/-- Modelled from the spec: the Compound Error Aggregator `Combine(primary, secondary)`
of §4.4 is not among the sources; `commands/gcp_up_test.go` states its results. With
`secondary` nil it returns `primary` unchanged; with both set, the two messages joined
under the header "the following errors occurred:", each on its own line, primary
first. An error is its message. -/
def Combine (primary : String) (secondary : Option String) : String :=
  match secondary with
  | none => primary
  | some second => "the following errors occurred:\n" ++ primary ++ ",\n" ++ second

/-- Modelled from the spec: what a failed apply or director-create step hands to the
orchestrator (§4.5, rules 4 and 8): its message and, when the failure carries a
recoverable snapshot, the result of its accessor `RecoverState()`. The orchestrator
itself is not among the sources. -/
structure StepFailure where
  message : String
  recoverState : Option (Except String State)

/-- Modelled from the spec: the follow-up of a failed step (§4.5 rules 4 and 8, §7).
A failure without snapshot is surfaced as it is; when recovery fails, both errors are
combined and nothing is persisted; when recovery succeeds, the snapshot is persisted
and the failure is combined with the error of that `Save`, which is the failure itself
when `Save` succeeds. Returns the surfaced error and the states handed to `Save`. -/
def surfaceFailure (failure : StepFailure) (save : State → Option String) :
    String × List State :=
  match failure.recoverState with
  | none => (failure.message, [])
  | some (.error recoveryError) => (Combine failure.message (some recoveryError), [])
  | some (.ok recovered) => (Combine failure.message (save recovered), [recovered])

/-! ### Concrete queries used to run the definitions -/

/-- A query whose validator passes, whose terraform manager returns `outputs` and
whose infrastructure manager describes a stack with the output `BOSHEIP`. -/
def queryWith (outputs : List (String × Value)) (propertyName : String) : StateQuery :=
  NewStateQuery none (fun _ => .ok outputs)
    (fun name => .ok { Name := name, Outputs := [("BOSHEIP", "203.0.113.7")] }) propertyName

/-- A state with a director. -/
def directorState : State :=
  { State.zero with
    EnvID := "some-env-id"
    Jumpbox := { Jumpbox.zero with URL := "some-jumpbox-url" }
    BOSH := { BOSH.zero with
      DirectorUsername := "some-director-username"
      DirectorPassword := "some-director-password"
      DirectorAddress := "some-director-address"
      DirectorSSLCA := "some-ca" } }

/-- A state without a director and without a stack name. -/
def noDirectorState : State := { State.zero with NoDirector := true, EnvID := "some-env-id" }

end Commands

namespace Gcp

open Storage

/-! ## Library functions of package `strings` -/

/-- Library function `unicode.IsSpace`. -/
def isSpace (c : Char) : Bool :=
  c == '\t' || c == '\n' || c.val == 0x0B || c.val == 0x0C || c == '\r' || c == ' '
    || c.val == 0x85 || c.val == 0xA0 || c.val == 0x1680
    || (0x2000 ≤ c.val && c.val ≤ 0x200A)
    || c.val == 0x2028 || c.val == 0x2029 || c.val == 0x202F || c.val == 0x205F
    || c.val == 0x3000

/-- Library function `strings.TrimSpace`. -/
def stringsTrimSpace (s : String) : String :=
  String.mk ((s.data.dropWhile isSpace).reverse.dropWhile isSpace).reverse

/-- Library function `strings.TrimSuffix`. -/
def stringsTrimSuffix (s suffix : String) : String :=
  if suffix.data.isSuffixOf s.data then
    String.mk (s.data.take (s.data.length - suffix.data.length))
  else s

/-- Library function `strings.Split(s, sep)` for a separator of one character. -/
def stringsSplit (s : String) (sep : Char) : List String :=
  (s.data.splitOn sep).map String.mk

/-- Library function `strings.Join(elems, sep)`. -/
def stringsJoin (elems : List String) (sep : String) : String :=
  String.mk (sep.data.intercalate (elems.map String.data))

/-! ## The key pair updater (`gcp/key_pair_updater.go`) -/

/-- Struct `compute.MetadataItems`; `Value` is a `*string`, `none` when `nil`. -/
structure MetadataItems where
  Key : String
  Value : Option String

/-- Struct `compute.Metadata`. -/
structure Metadata where
  Fingerprint : String
  Items : List MetadataItems
  Kind : String

/-- The fields of `compute.Project` the updater reads. -/
structure Project where
  Name : String
  CommonInstanceMetadata : Metadata

/-- Interface `metadataSetter`, declared outside the sources at hand and taken from the
two calls `Update` makes on it: what `GetProject` returns at its n-th call, and the
error `SetCommonInstanceMetadata` returns at its n-th call for the given metadata. -/
structure metadataSetter where
  GetProject : Nat → Except String Project
  SetCommonInstanceMetadata : Nat → Metadata → Option String

/-- Struct `KeyPairUpdater`, over the types of RSA private keys and of SSH public
keys. `rsaKeyGenerator` is given by its result at the n-th call (its reader `random`
is part of that); the logger is the trace of the world. -/
structure KeyPairUpdater (κ π : Type) where
  retryCount : Nat
  rsaKeyGenerator : Nat → Except String κ
  sshPublicKeyGenerator : κ → Except String π
  client : metadataSetter

/-- The library functions the updater calls, which are not part of this repository:
`ssh.MarshalAuthorizedKey`, the PEM encoding of `x509.MarshalPKCS1PrivateKey(rsaKey)`,
and `rand.Intn(n)` by its result at the n-th call. -/
structure Lib (κ π : Type) where
  marshalAuthorizedKey : π → String
  encodePrivateKey : κ → String
  randIntn : Nat → Int → Int

/-- Something the updater does besides calling its collaborators. -/
inductive Event where
  | step (format : String) (arg : String) : Event
  | sleep (d : Int) : Event

/-- The world of the updater: the number of calls made to the RSA key generator, to
`GetProject` and to `rand.Intn`, the metadata handed to `SetCommonInstanceMetadata`
call by call, and the logged steps and sleeps, oldest first. -/
structure World where
  keyCalls : Nat
  projectCalls : Nat
  randCalls : Nat
  setLog : List Metadata
  trace : List Event

/-- Function `NewKeyPairUpdater`. -/
def NewKeyPairUpdater {κ π : Type} (generateRSAKey : Nat → Except String κ)
    (generateSSHPublicKey : κ → Except String π) (client : metadataSetter) :
    KeyPairUpdater κ π :=
  { retryCount := 0, rsaKeyGenerator := generateRSAKey,
    sshPublicKeyGenerator := generateSSHPublicKey, client := client }

variable {κ π : Type}

/-- Method `createKeyPair`: the private key, the public key and the error. -/
def KeyPairUpdater.createKeyPair (lib : Lib κ π) (keyPairUpdater : KeyPairUpdater κ π)
    (w : World) : (String × String × Option String) × World :=
  let w1 := { w with keyCalls := w.keyCalls + 1 }
  match keyPairUpdater.rsaKeyGenerator w.keyCalls with
  | .error err => (("", "", some ("rsa key generator: " ++ err)), w1)
  | .ok rsaKey =>
    match keyPairUpdater.sshPublicKeyGenerator rsaKey with
    | .error err => (("", "", some ("ssh public key generator: " ++ err)), w1)
    | .ok publicKey =>
      let rawPublicKey := lib.marshalAuthorizedKey publicKey
      let rawPublicKey := stringsTrimSuffix rawPublicKey "\n"
      let privateKey := lib.encodePrivateKey rsaKey
      ((privateKey, rawPublicKey, none), w1)

/-- The `for` loop of `Update` over the metadata items: the items after the loop and
the variable `updated`. Dereferencing a `nil` `Value` panics. -/
def KeyPairUpdater.Update.loop (sshKeyItemValue : String) :
    List MetadataItems → Go.Outcome (List MetadataItems × Bool)
  | [] => .returned ([], false)
  | item :: rest =>
    if item.Key == "sshKeys" then
      match item.Value with
      | none => .panicked Go.nilDereference
      | some value =>
        let sshKeys := stringsSplit value '\n'
        let sshKeys := sshKeys ++ [sshKeyItemValue]
        let newValue := stringsJoin sshKeys "\n"
        .returned ({ item with Value := some newValue } :: rest, true)
    else
      match KeyPairUpdater.Update.loop sshKeyItemValue rest with
      | .panicked reason => .panicked reason
      | .returned (items, updated) => .returned (item :: items, updated)

/-- Method `KeyPairUpdater.Update`. The receiver is a copy, so the incremented
`retryCount` reaches the recursive call and nothing else. -/
def KeyPairUpdater.Update (lib : Lib κ π) (k : KeyPairUpdater κ π) (w : World) :
    Go.Outcome (KeyPair × Option String) × World :=
  match k.createKeyPair lib w with
  | ((_, _, some err), w) => (.returned (KeyPair.zero, some ("create key pair: " ++ err)), w)
  | ((privateKey, publicKey, none), w) =>
    match k.client.GetProject w.projectCalls with
    | .error err =>
      (.returned (KeyPair.zero, some ("get project: " ++ err)),
        { w with projectCalls := w.projectCalls + 1 })
    | .ok project =>
      let w := { w with projectCalls := w.projectCalls + 1 }
      let sshKeyItemValue := "vcap:" ++ stringsTrimSpace publicKey ++ " vcap"
      match KeyPairUpdater.Update.loop sshKeyItemValue project.CommonInstanceMetadata.Items with
      | .panicked reason => (.panicked reason, w)
      | .returned (items, updated) =>
        let w :=
          if updated then
            { w with trace := w.trace
                ++ [Event.step "appending new ssh-keys for the project %q" project.Name] }
          else
            { w with trace := w.trace
                ++ [Event.step "Creating new ssh-keys for the project %q" project.Name] }
        let items :=
          if !updated then items ++ [{ Key := "sshKeys", Value := some sshKeyItemValue }]
          else items
        let metadata := { project.CommonInstanceMetadata with Items := items }
        match k.client.SetCommonInstanceMetadata w.setLog.length metadata with
        | none =>
          (.returned ({ PrivateKey := privateKey, PublicKey := publicKey }, none),
            { w with setLog := w.setLog ++ [metadata] })
        | some err =>
          let w := { w with setLog := w.setLog ++ [metadata] }
          if _h : k.retryCount + 1 < 3 then
            KeyPairUpdater.Update lib { k with retryCount := k.retryCount + 1 }
              { w with
                randCalls := w.randCalls + 1
                trace := w.trace
                  ++ [Event.sleep ((500 + lib.randIntn w.randCalls 1500) * 1000000)] }
          else
            (.returned (KeyPair.zero, some ("set common instance metadata: " ++ err)), w)
termination_by 3 - k.retryCount
decreasing_by
  simp_wf
  omega

/-! ### A concrete updater used to run the definitions -/

/-- Library functions over keys given as text: the authorized-key line ends in a
newline, and every draw of `rand.Intn` is 250. -/
def plainLib : Lib String String :=
  { marshalAuthorizedKey := fun publicKey => "ssh-rsa " ++ publicKey ++ "\n"
    encodePrivateKey := fun rsaKey => "RSA PRIVATE KEY " ++ rsaKey
    randIntn := fun _ _ => 250 }

/-- A project with an item before its `sshKeys` item and one after. -/
def someProject : Project :=
  { Name := "some-project"
    CommonInstanceMetadata :=
      { Fingerprint := "some-fingerprint", Kind := "compute#metadata"
        Items := [⟨"some-key", some "some-value"⟩,
          ⟨"sshKeys", some "someone:ssh-rsa AAAA someone"⟩,
          ⟨"some-other-key", some "some-other-value"⟩] } }

/-- The RSA key the generator returns at its n-th call. -/
def someKey (n : Nat) : String :=
  if n = 0 then "key-0" else if n = 1 then "key-1" else "key-2"

/-- The error of the n-th metadata update when the first `failures` updates fail. -/
def someOutcome (failures : Nat) (n : Nat) : Option String :=
  if n < failures then (if n = 2 then some "third failure" else some "metadata is busy")
  else none

/-- An updater as `NewKeyPairUpdater` builds it, whose key generation and `GetProject`
succeed and whose first `failures` metadata updates fail. -/
def someUpdater (failures : Nat) : KeyPairUpdater String String :=
  NewKeyPairUpdater (fun n => .ok (someKey n)) (fun rsaKey => .ok ("public " ++ rsaKey))
    { GetProject := fun _ => .ok someProject
      SetCommonInstanceMetadata := fun n _ => someOutcome failures n }

/-- A world in which the updater has done nothing yet. -/
def freshWorld : World :=
  { keyCalls := 0, projectCalls := 0, randCalls := 0, setLog := [], trace := [] }

end Gcp

namespace Storage

variable {β : Type}

/-! ## `reflect.DeepEqual` against the zero value -/

theorem State.isZero_iff (s : State) : s.isZero = true ↔ s = State.zero := by
  rcases s with ⟨v, iaas, id, nd, mig, ⟨a1, a2, a3⟩, ⟨z1, z2, z3, z4⟩, ⟨g1, g2, g3, g4, g5⟩,
    ⟨k1, k2⟩, ⟨j1, j2, j3, j4, j5⟩, ⟨b1, b2, b3, b4, b5, b6, b7, b8, b9, b10, b11⟩,
    ⟨s1, s2, s3, s4⟩, env, tf, ⟨l1, l2, l3, l4, l5⟩, lt⟩
  simp [State.isZero, State.zero, AWS.isZero, AWS.zero, Azure.isZero, Azure.zero, GCP.isZero,
    GCP.zero, KeyPair.isZero, KeyPair.zero, Jumpbox.IsEmpty, Jumpbox.zero, BOSH.isZero,
    BOSH.zero, Stack.isZero, Stack.zero, LB.isZero, LB.zero, and_assoc]

theorem State.isZero_eq_false_iff (s : State) : s.isZero = false ↔ s ≠ State.zero := by
  rw [Ne, ← State.isZero_iff]; simp

/-! ## `Store.Set` case by case -/

/-- On a non-zero state in an existing directory, `Store.Set` is the ID assignment
followed by marshalling and writing `Store.document`. -/
theorem Store.Set_of_nonzero (env : Env β) (s : Store) (state : State) (w : World β)
    (hdir : env.stat (filepathDir s.stateFile) = none) (hne : state ≠ State.zero) :
    s.Set env state w =
      if state.ID = "" then
        match env.uuidNewV4 w.uuidCalls with
        | .error err => (some ("Create state ID: " ++ err), { w with uuidCalls := w.uuidCalls + 1 })
        | .ok uuid =>
          match env.marshalIndent (s.document state uuid.String) with
          | .error err => (some err, { w with uuidCalls := w.uuidCalls + 1 })
          | .ok data =>
            match env.writeFault s.stateFile with
            | some err => (some err.msg,
                { w with uuidCalls := w.uuidCalls + 1, log := w.log ++ [Op.write s.stateFile data] })
            | none => (none,
                { files := fun q => if q = s.stateFile then some data else w.files q,
                  uuidCalls := w.uuidCalls + 1, log := w.log ++ [Op.write s.stateFile data] })
      else
        match env.marshalIndent (s.document state state.ID) with
        | .error err => (some err, w)
        | .ok data =>
          match env.writeFault s.stateFile with
          | some err => (some err.msg, { w with log := w.log ++ [Op.write s.stateFile data] })
          | none => (none,
              { files := fun q => if q = s.stateFile then some data else w.files q,
                uuidCalls := w.uuidCalls, log := w.log ++ [Op.write s.stateFile data] }) := by
  have hz : state.isZero = false := (State.isZero_eq_false_iff state).2 hne
  unfold Store.Set
  simp only [hdir, hz]
  cases hw : env.writeFault s.stateFile <;> by_cases hid : state.ID = ""
  all_goals simp only [uuidNewV4, Store.document, ioutilWriteFile, hw]
  all_goals cases hu : env.uuidNewV4 w.uuidCalls <;> simp [hid]

/-- On the zero state in an existing directory, `Store.Set` is `os.Remove` with the
not-exist error dropped. -/
theorem Store.Set_of_zero (env : Env β) (s : Store) (w : World β)
    (hdir : env.stat (filepathDir s.stateFile) = none) :
    s.Set env State.zero w =
      match env.removeFault s.stateFile with
      | some err =>
        (if err.notExist then none else some err.msg,
          { w with log := w.log ++ [Op.remove s.stateFile] })
      | none =>
        (none, { files := fun q => if q = s.stateFile then none else w.files q,
                 uuidCalls := w.uuidCalls, log := w.log ++ [Op.remove s.stateFile] }) := by
  have hz : State.zero.isZero = true := (State.isZero_iff _).2 rfl
  unfold Store.Set
  simp only [hdir, hz, osRemove]
  cases hr : env.removeFault s.stateFile with
  | some e => cases hn : e.notExist <;> simp [hn]
  | none =>
    cases hf : w.files s.stateFile with
    | some d => simp
    | none =>
      simp
      funext q
      by_cases hq : q = s.stateFile <;> simp [hq, hf]

/-- What a successful `Store.Set` of a non-zero state did. -/
theorem Store.Set_ok_of_nonzero (env : Env β) (s : Store) (state : State) (w : World β)
    (hdir : env.stat (filepathDir s.stateFile) = none) (hne : state ≠ State.zero)
    (hok : (s.Set env state w).1 = none) :
    ∃ id data,
      ((state.ID ≠ "" ∧ id = state.ID ∧ (s.Set env state w).2.uuidCalls = w.uuidCalls) ∨
        (state.ID = "" ∧ (∃ uuid, env.uuidNewV4 w.uuidCalls = .ok uuid ∧ id = uuid.String) ∧
          (s.Set env state w).2.uuidCalls = w.uuidCalls + 1)) ∧
      env.marshalIndent (s.document state id) = .ok data ∧
      (s.Set env state w).2.files = (fun q => if q = s.stateFile then some data else w.files q) ∧
      (s.Set env state w).2.log = w.log ++ [Op.write s.stateFile data] := by
  rw [Store.Set_of_nonzero env s state w hdir hne] at hok ⊢
  by_cases hid : state.ID = ""
  · simp only [hid, if_true] at hok ⊢
    cases hu : env.uuidNewV4 w.uuidCalls with
    | error e => simp [hu] at hok
    | ok u =>
      simp only [hu] at hok ⊢
      cases hm : env.marshalIndent (s.document state u.String) with
      | error e => simp [hm] at hok
      | ok data =>
        simp only [hm] at hok ⊢
        cases hw : env.writeFault s.stateFile with
        | some e => simp [hw] at hok
        | none => exact ⟨u.String, data, by simp, hm, rfl, rfl⟩
  · simp only [hid, if_false] at hok ⊢
    cases hm : env.marshalIndent (s.document state state.ID) with
    | error e => simp [hm] at hok
    | ok data =>
      simp only [hm] at hok ⊢
      cases hw : env.writeFault s.stateFile with
      | some e => simp [hw] at hok
      | none => exact ⟨state.ID, data, by simp [hid], hm, rfl, rfl⟩

/-! ## Claims about `Store.Set` -/

/-- C1: for every state that is not the all-zero value and every existing target
directory, when `Store.Set` succeeds the document it marshals and writes to the state
file has `AWS.AccessKeyID`, `AWS.SecretAccessKey`, `GCP.ServiceAccountKey` and
`GCP.ProjectID` all empty, whatever the input state held there. -/
theorem Store.Set_strips_secrets (env : Env β) (s : Store) (state : State) (w : World β)
    (hdir : env.stat (filepathDir s.stateFile) = none) (hne : state ≠ State.zero)
    (hok : (s.Set env state w).1 = none) :
    ∃ doc data,
      env.marshalIndent doc = .ok data ∧
      (s.Set env state w).2.files s.stateFile = some data ∧
      (s.Set env state w).2.log = w.log ++ [Op.write s.stateFile data] ∧
      doc.AWS.AccessKeyID = "" ∧ doc.AWS.SecretAccessKey = "" ∧
      doc.GCP.ServiceAccountKey = "" ∧ doc.GCP.ProjectID = "" := by
  obtain ⟨id, data, _, hm, hf, hl⟩ := Store.Set_ok_of_nonzero env s state w hdir hne hok
  exact ⟨s.document state id, data, hm, by simp [hf], hl, rfl, rfl, rfl, rfl⟩

/-- Witness of C1: the state with every secret populated, written into an empty
directory. -/
theorem Store.Set_strips_secrets_witness :
    ∃ doc data,
      plainEnv.marshalIndent doc = .ok data ∧
      ((NewStore "some-dir").Set plainEnv secretState emptyWorld).2.files
        (NewStore "some-dir").stateFile = some data ∧
      ((NewStore "some-dir").Set plainEnv secretState emptyWorld).2.log =
        emptyWorld.log ++ [Op.write (NewStore "some-dir").stateFile data] ∧
      doc.AWS.AccessKeyID = "" ∧ doc.AWS.SecretAccessKey = "" ∧
      doc.GCP.ServiceAccountKey = "" ∧ doc.GCP.ProjectID = "" :=
  Store.Set_strips_secrets plainEnv (NewStore "some-dir") secretState emptyWorld rfl
    (fun h => by simpa [secretState, State.zero] using congrArg State.IAAS h) rfl

/-- C2, as stated, fails: the state with `Azure.ClientSecret` populated is written
with the client secret still in the document. -/
theorem Store.Set_keeps_azure_client_secret :
    secretState ≠ State.zero ∧
    secretState.Azure.ClientSecret = "client-secret" ∧
    ((NewStore "some-dir").Set plainEnv secretState emptyWorld).1 = none ∧
    (((NewStore "some-dir").Set plainEnv secretState emptyWorld).2.files
      (NewStore "some-dir").stateFile).map (fun doc => doc.Azure.ClientSecret)
        = some "client-secret" ∧
    (((NewStore "some-dir").Set plainEnv secretState emptyWorld).2.files
      (NewStore "some-dir").stateFile).map (fun doc => doc.Azure.ClientSecret)
        ≠ some "" :=
  ⟨fun h => by simpa [secretState, State.zero] using congrArg State.IAAS h, rfl, rfl, rfl,
    by decide⟩

/-- C2, amended: for every non-zero state, the document a successful `Store.Set`
writes carries none of `AWS.AccessKeyID`, `AWS.SecretAccessKey`,
`GCP.ServiceAccountKey` and `GCP.ProjectID` (they are written empty), while the
`Azure` group, `ClientSecret` included, is written as it came in. -/
theorem Store.Set_strips_aws_gcp_only (env : Env β) (s : Store) (state : State) (w : World β)
    (hdir : env.stat (filepathDir s.stateFile) = none) (hne : state ≠ State.zero)
    (hok : (s.Set env state w).1 = none) :
    ∃ doc data,
      env.marshalIndent doc = .ok data ∧
      (s.Set env state w).2.files s.stateFile = some data ∧
      doc.AWS.AccessKeyID = "" ∧ doc.AWS.SecretAccessKey = "" ∧
      doc.GCP.ServiceAccountKey = "" ∧ doc.GCP.ProjectID = "" ∧
      doc.Azure = state.Azure ∧ doc.Azure.ClientSecret = state.Azure.ClientSecret := by
  obtain ⟨id, data, _, hm, hf, _⟩ := Store.Set_ok_of_nonzero env s state w hdir hne hok
  exact ⟨s.document state id, data, hm, by simp [hf], rfl, rfl, rfl, rfl, rfl, rfl⟩

/-- Witness of amended C2. -/
theorem Store.Set_strips_aws_gcp_only_witness :
    ∃ doc data,
      plainEnv.marshalIndent doc = .ok data ∧
      ((NewStore "some-dir").Set plainEnv secretState emptyWorld).2.files
        (NewStore "some-dir").stateFile = some data ∧
      doc.AWS.AccessKeyID = "" ∧ doc.AWS.SecretAccessKey = "" ∧
      doc.GCP.ServiceAccountKey = "" ∧ doc.GCP.ProjectID = "" ∧
      doc.Azure = secretState.Azure ∧
      doc.Azure.ClientSecret = secretState.Azure.ClientSecret :=
  Store.Set_strips_aws_gcp_only plainEnv (NewStore "some-dir") secretState emptyWorld rfl
    (fun h => by simpa [secretState, State.zero] using congrArg State.IAAS h) rfl

/-- C3: for every non-zero state, whatever its input `Version`, a successful
`Store.Set` on a store built by `NewStore` writes a document whose `Version` is
`STATE_VERSION`, which is 10. -/
theorem Store.Set_stamps_version (env : Env β) (dir : String) (state : State) (w : World β)
    (hdir : env.stat dir = none) (hne : state ≠ State.zero)
    (hok : ((NewStore dir).Set env state w).1 = none) :
    ∃ doc data,
      env.marshalIndent doc = .ok data ∧
      ((NewStore dir).Set env state w).2.files (filepathJoin dir StateFileName) = some data ∧
      doc.Version = STATE_VERSION ∧ STATE_VERSION = 10 := by
  obtain ⟨id, data, _, hm, hf, _⟩ :=
    Store.Set_ok_of_nonzero env (NewStore dir) state w hdir hne hok
  exact ⟨(NewStore dir).document state id, data, hm, by rw [hf]; simp [NewStore], rfl, rfl⟩

/-- Witness of C3: a document of a newer version, 11, is written with version 10. -/
theorem Store.Set_stamps_version_witness :
    ∃ doc data,
      plainEnv.marshalIndent doc = .ok data ∧
      ((NewStore "some-dir").Set plainEnv (versionOnlyState 11) emptyWorld).2.files
        (filepathJoin "some-dir" StateFileName) = some data ∧
      doc.Version = STATE_VERSION ∧ STATE_VERSION = 10 :=
  Store.Set_stamps_version plainEnv "some-dir" (versionOnlyState 11) emptyWorld rfl
    (fun h => by simpa [versionOnlyState, State.zero] using congrArg State.Version h) rfl

/-- C4: in an existing target directory, `Store.Set` issues a removal of the backing
file, and nothing else, if and only if the state is the all-zero value; for the
all-zero value it returns no error and leaves no backing file, whether the file
existed or was already missing (when `os.Remove` meets no fault of its own); for any
other state it never removes: it issues nothing or one write, and one write whenever it
succeeds. -/
theorem Store.Set_removes_iff_zero (env : Env β) (s : Store) (state : State) (w : World β)
    (hdir : env.stat (filepathDir s.stateFile) = none) :
    ((s.Set env state w).2.log = w.log ++ [Op.remove s.stateFile] ↔ state = State.zero) ∧
    (state = State.zero → env.removeFault s.stateFile = none →
      (s.Set env state w).1 = none ∧ (s.Set env state w).2.files s.stateFile = none ∧
        ∀ q, q ≠ s.stateFile → (s.Set env state w).2.files q = w.files q) ∧
    (state ≠ State.zero →
      (s.Set env state w).2.log = w.log ∨
        ∃ data, (s.Set env state w).2.log = w.log ++ [Op.write s.stateFile data]) ∧
    (state ≠ State.zero → (s.Set env state w).1 = none →
      ∃ data, (s.Set env state w).2.files s.stateFile = some data ∧
        (s.Set env state w).2.log = w.log ++ [Op.write s.stateFile data]) := by
  have hwrite : state ≠ State.zero →
      (s.Set env state w).2.log = w.log ∨
        ∃ data, (s.Set env state w).2.log = w.log ++ [Op.write s.stateFile data] := by
    intro hne
    rw [Store.Set_of_nonzero env s state w hdir hne]
    by_cases hid : state.ID = ""
    · simp only [hid, if_true]
      cases hu : env.uuidNewV4 w.uuidCalls with
      | error e => simp
      | ok u =>
        simp only
        cases hm : env.marshalIndent (s.document state u.String) with
        | error e => simp
        | ok data => cases hw : env.writeFault s.stateFile <;> simp
    · simp only [hid, if_false]
      cases hm : env.marshalIndent (s.document state state.ID) with
      | error e => simp
      | ok data => cases hw : env.writeFault s.stateFile <;> simp
  have hlog : (s.Set env State.zero w).2.log = w.log ++ [Op.remove s.stateFile] := by
    rw [Store.Set_of_zero env s w hdir]
    cases hr : env.removeFault s.stateFile <;> simp
  refine ⟨⟨fun h => ?_, fun h => by rw [h]; exact hlog⟩, ?_, hwrite, ?_⟩
  · by_contra hne
    rcases hwrite hne with h1 | ⟨data, h1⟩
    · rw [h1] at h; simp at h
    · rw [h1] at h; simp at h
  · intro hz hr
    subst hz
    rw [Store.Set_of_zero env s w hdir]
    rw [hr]
    exact ⟨rfl, by simp, fun q hq => by simp [hq]⟩
  · intro hne hok
    obtain ⟨id, data, _, _, hf, hl⟩ := Store.Set_ok_of_nonzero env s state w hdir hne hok
    exact ⟨data, by rw [hf]; simp, hl⟩

/-- Witness of C4: a state whose only non-zero field is `Version`, set over an
existing state file. -/
theorem Store.Set_removes_iff_zero_witness :
    (((NewStore "some-dir").Set plainEnv (versionOnlyState 1) (worldWith namedState)).2.log =
        (worldWith namedState).log ++ [Op.remove (NewStore "some-dir").stateFile] ↔
      versionOnlyState 1 = State.zero) ∧
    (versionOnlyState 1 = State.zero →
      plainEnv.removeFault (NewStore "some-dir").stateFile = none →
      ((NewStore "some-dir").Set plainEnv (versionOnlyState 1) (worldWith namedState)).1 = none ∧
        ((NewStore "some-dir").Set plainEnv (versionOnlyState 1) (worldWith namedState)).2.files
          (NewStore "some-dir").stateFile = none ∧
        ∀ q, q ≠ (NewStore "some-dir").stateFile →
          ((NewStore "some-dir").Set plainEnv (versionOnlyState 1) (worldWith namedState)).2.files q
            = (worldWith namedState).files q) ∧
    (versionOnlyState 1 ≠ State.zero →
      ((NewStore "some-dir").Set plainEnv (versionOnlyState 1) (worldWith namedState)).2.log =
          (worldWith namedState).log ∨
        ∃ data,
          ((NewStore "some-dir").Set plainEnv (versionOnlyState 1) (worldWith namedState)).2.log =
            (worldWith namedState).log ++ [Op.write (NewStore "some-dir").stateFile data]) ∧
    (versionOnlyState 1 ≠ State.zero →
      ((NewStore "some-dir").Set plainEnv (versionOnlyState 1) (worldWith namedState)).1 = none →
      ∃ data,
        ((NewStore "some-dir").Set plainEnv (versionOnlyState 1) (worldWith namedState)).2.files
          (NewStore "some-dir").stateFile = some data ∧
        ((NewStore "some-dir").Set plainEnv (versionOnlyState 1) (worldWith namedState)).2.log =
          (worldWith namedState).log ++ [Op.write (NewStore "some-dir").stateFile data]) :=
  Store.Set_removes_iff_zero plainEnv (NewStore "some-dir") (versionOnlyState 1)
    (worldWith namedState) rfl

/-- C5: for every non-zero state in an existing directory: when the ID is non-empty
the UUID generator is not consulted and the document a successful `Store.Set` writes
carries exactly that ID; when the ID is empty and the generator returns a UUID, the
written ID is that UUID's string form; and when generation fails, `Store.Set` returns
"Create state ID: <cause>" and neither touches a file nor issues an operation. -/
theorem Store.Set_assigns_id (env : Env β) (s : Store) (state : State) (w : World β)
    (hdir : env.stat (filepathDir s.stateFile) = none) (hne : state ≠ State.zero) :
    (state.ID ≠ "" →
      (s.Set env state w).2.uuidCalls = w.uuidCalls ∧
      ((s.Set env state w).1 = none →
        ∃ doc data, env.marshalIndent doc = .ok data ∧
          (s.Set env state w).2.files s.stateFile = some data ∧ doc.ID = state.ID)) ∧
    (state.ID = "" → ∀ uuid, env.uuidNewV4 w.uuidCalls = .ok uuid →
      (s.Set env state w).2.uuidCalls = w.uuidCalls + 1 ∧
      ((s.Set env state w).1 = none →
        ∃ doc data, env.marshalIndent doc = .ok data ∧
          (s.Set env state w).2.files s.stateFile = some data ∧ doc.ID = uuid.String)) ∧
    (state.ID = "" → ∀ cause, env.uuidNewV4 w.uuidCalls = .error cause →
      (s.Set env state w).1 = some ("Create state ID: " ++ cause) ∧
      (s.Set env state w).2.files = w.files ∧ (s.Set env state w).2.log = w.log) := by
  refine ⟨fun hid => ⟨?_, fun hok => ?_⟩, fun hid uuid hu => ⟨?_, fun hok => ?_⟩,
    fun hid cause hu => ?_⟩
  · rw [Store.Set_of_nonzero env s state w hdir hne]
    simp only [hid, if_false]
    cases hm : env.marshalIndent (s.document state state.ID) with
    | error e => rfl
    | ok data => cases hw : env.writeFault s.stateFile <;> rfl
  · obtain ⟨id, data, hcase, hm, hf, _⟩ := Store.Set_ok_of_nonzero env s state w hdir hne hok
    rcases hcase with ⟨_, rfl, _⟩ | ⟨hempty, _⟩
    · exact ⟨s.document state state.ID, data, hm, by rw [hf]; simp, rfl⟩
    · exact absurd hempty hid
  · rw [Store.Set_of_nonzero env s state w hdir hne]
    simp only [hid, if_true, hu]
    cases hm : env.marshalIndent (s.document state uuid.String) with
    | error e => rfl
    | ok data => cases hw : env.writeFault s.stateFile <;> rfl
  · obtain ⟨id, data, hcase, hm, hf, _⟩ := Store.Set_ok_of_nonzero env s state w hdir hne hok
    rcases hcase with ⟨hfull, _⟩ | ⟨_, ⟨u, hu2, rfl⟩, _⟩
    · exact absurd hid hfull
    · rw [hu] at hu2
      cases hu2
      exact ⟨s.document state uuid.String, data, hm, by rw [hf]; simp, rfl⟩
  · rw [Store.Set_of_nonzero env s state w hdir hne]
    simp [hid, hu]

/-- Witness of C5: a state without ID, set while the UUID generator fails. -/
theorem Store.Set_assigns_id_witness :
    (secretState.ID ≠ "" →
      ((NewStore "some-dir").Set noUUIDEnv secretState emptyWorld).2.uuidCalls
        = emptyWorld.uuidCalls ∧
      (((NewStore "some-dir").Set noUUIDEnv secretState emptyWorld).1 = none →
        ∃ doc data, noUUIDEnv.marshalIndent doc = .ok data ∧
          ((NewStore "some-dir").Set noUUIDEnv secretState emptyWorld).2.files
            (NewStore "some-dir").stateFile = some data ∧ doc.ID = secretState.ID)) ∧
    (secretState.ID = "" → ∀ uuid, noUUIDEnv.uuidNewV4 emptyWorld.uuidCalls = .ok uuid →
      ((NewStore "some-dir").Set noUUIDEnv secretState emptyWorld).2.uuidCalls
        = emptyWorld.uuidCalls + 1 ∧
      (((NewStore "some-dir").Set noUUIDEnv secretState emptyWorld).1 = none →
        ∃ doc data, noUUIDEnv.marshalIndent doc = .ok data ∧
          ((NewStore "some-dir").Set noUUIDEnv secretState emptyWorld).2.files
            (NewStore "some-dir").stateFile = some data ∧ doc.ID = uuid.String)) ∧
    (secretState.ID = "" → ∀ cause, noUUIDEnv.uuidNewV4 emptyWorld.uuidCalls = .error cause →
      ((NewStore "some-dir").Set noUUIDEnv secretState emptyWorld).1
        = some ("Create state ID: " ++ cause) ∧
      ((NewStore "some-dir").Set noUUIDEnv secretState emptyWorld).2.files = emptyWorld.files ∧
      ((NewStore "some-dir").Set noUUIDEnv secretState emptyWorld).2.log = emptyWorld.log) :=
  Store.Set_assigns_id noUUIDEnv (NewStore "some-dir") secretState emptyWorld rfl
    (fun h => by simpa [secretState, State.zero] using congrArg State.IAAS h)

/-- C6, as stated, fails: two successive successful `Store.Set` calls with the same
ID-less state leave different IDs in the backing file, the second call replacing the
ID the first one wrote. -/
theorem Store.Set_twice_regenerates_id :
    secretState ≠ State.zero ∧ secretState.ID = "" ∧
    ((NewStore "some-dir").Set plainEnv secretState emptyWorld).1 = none ∧
    ((NewStore "some-dir").Set plainEnv secretState
      ((NewStore "some-dir").Set plainEnv secretState emptyWorld).2).1 = none ∧
    (((NewStore "some-dir").Set plainEnv secretState emptyWorld).2.files
      (NewStore "some-dir").stateFile).map (fun doc => doc.ID)
        = some "6ba7b810-9dad-41d1-80b4-00c04fd430c8" ∧
    (((NewStore "some-dir").Set plainEnv secretState
      ((NewStore "some-dir").Set plainEnv secretState emptyWorld).2).2.files
      (NewStore "some-dir").stateFile).map (fun doc => doc.ID)
        = some "6ba7b811-9dad-41d1-80b4-00c04fd430c8" ∧
    (((NewStore "some-dir").Set plainEnv secretState
      ((NewStore "some-dir").Set plainEnv secretState emptyWorld).2).2.files
      (NewStore "some-dir").stateFile).map (fun doc => doc.ID)
        ≠ (((NewStore "some-dir").Set plainEnv secretState emptyWorld).2.files
            (NewStore "some-dir").stateFile).map (fun doc => doc.ID) :=
  ⟨fun h => by simpa [secretState, State.zero] using congrArg State.IAAS h, rfl, rfl, rfl,
    rfl, rfl, by decide⟩

/-- C6, amended: `Store.Set` never reads the backing file, so for every non-zero state
with an empty ID each successful call writes the string form of the UUID generated
during that call: after two successive successful calls with the same state the file
holds the ID generated by the second call, which is the ID the first call wrote only
if the generator returned the same UUID twice. -/
theorem Store.Set_twice_id (env : Env β) (s : Store) (state : State) (w : World β)
    (hdir : env.stat (filepathDir s.stateFile) = none) (hne : state ≠ State.zero)
    (hid : state.ID = "")
    (hok1 : (s.Set env state w).1 = none)
    (hok2 : (s.Set env state (s.Set env state w).2).1 = none) :
    ∃ uuid1 uuid2 doc1 data1 doc2 data2,
      env.uuidNewV4 w.uuidCalls = .ok uuid1 ∧
      env.uuidNewV4 (w.uuidCalls + 1) = .ok uuid2 ∧
      env.marshalIndent doc1 = .ok data1 ∧
      (s.Set env state w).2.files s.stateFile = some data1 ∧ doc1.ID = uuid1.String ∧
      env.marshalIndent doc2 = .ok data2 ∧
      (s.Set env state (s.Set env state w).2).2.files s.stateFile = some data2 ∧
      doc2.ID = uuid2.String ∧
      (s.Set env state (s.Set env state w).2).2.uuidCalls = w.uuidCalls + 2 := by
  obtain ⟨id1, data1, hcase1, hm1, hf1, _⟩ :=
    Store.Set_ok_of_nonzero env s state w hdir hne hok1
  obtain ⟨id2, data2, hcase2, hm2, hf2, _⟩ :=
    Store.Set_ok_of_nonzero env s state (s.Set env state w).2 hdir hne hok2
  rcases hcase1 with ⟨hfull, _⟩ | ⟨_, ⟨u1, hu1, rfl⟩, hc1⟩
  · exact absurd hid hfull
  rcases hcase2 with ⟨hfull, _⟩ | ⟨_, ⟨u2, hu2, rfl⟩, hc2⟩
  · exact absurd hid hfull
  rw [hc1] at hu2 hc2
  exact ⟨u1, u2, s.document state u1.String, data1, s.document state u2.String, data2,
    hu1, hu2, hm1, by rw [hf1]; simp, rfl, hm2, by rw [hf2]; simp, rfl, hc2⟩

/-- Witness of amended C6. -/
theorem Store.Set_twice_id_witness :
    ∃ uuid1 uuid2 doc1 data1 doc2 data2,
      plainEnv.uuidNewV4 emptyWorld.uuidCalls = .ok uuid1 ∧
      plainEnv.uuidNewV4 (emptyWorld.uuidCalls + 1) = .ok uuid2 ∧
      plainEnv.marshalIndent doc1 = .ok data1 ∧
      ((NewStore "some-dir").Set plainEnv secretState emptyWorld).2.files
        (NewStore "some-dir").stateFile = some data1 ∧ doc1.ID = uuid1.String ∧
      plainEnv.marshalIndent doc2 = .ok data2 ∧
      ((NewStore "some-dir").Set plainEnv secretState
        ((NewStore "some-dir").Set plainEnv secretState emptyWorld).2).2.files
        (NewStore "some-dir").stateFile = some data2 ∧
      doc2.ID = uuid2.String ∧
      ((NewStore "some-dir").Set plainEnv secretState
        ((NewStore "some-dir").Set plainEnv secretState emptyWorld).2).2.uuidCalls
        = emptyWorld.uuidCalls + 2 :=
  Store.Set_twice_id plainEnv (NewStore "some-dir") secretState emptyWorld rfl
    (fun h => by simpa [secretState, State.zero] using congrArg State.IAAS h) rfl rfl rfl

/-! ## `GetState` -/

/-- The two version errors have different messages. -/
theorem newerVersionMessage_ne (version : Int) :
    newerVersionMessage version ≠ incompatibleMessage := by
  intro h
  have h2 := congrArg (fun m : String => m.data.take 27) h
  simp [newerVersionMessage, incompatibleMessage, String.data_append] at h2

/-- When the state file opens and decodes without error to `doc`, `GetState` is the
normalisation of the all-zero document followed by the two version checks. -/
theorem GetState_of_decoded (env : Env β) (dir : String) (w : World β) (file : β)
    (doc : State) (hdir : env.stat dir = none)
    (hopen : env.openFault (filepathJoin dir StateFileName) = none)
    (hfile : w.files (filepathJoin dir StateFileName) = some file)
    (hdec : env.decode file = (doc, none)) :
    GetState env dir w =
      if (if doc.isZero then { State.zero with Version := STATE_VERSION } else doc).Version < 3
      then (if doc.isZero then { State.zero with Version := STATE_VERSION } else doc,
        some incompatibleMessage)
      else if
        (if doc.isZero then { State.zero with Version := STATE_VERSION } else doc).Version
          > STATE_VERSION
      then (if doc.isZero then { State.zero with Version := STATE_VERSION } else doc,
        some (newerVersionMessage
          (if doc.isZero then { State.zero with Version := STATE_VERSION } else doc).Version))
      else (if doc.isZero then { State.zero with Version := STATE_VERSION } else doc, none) := by
  unfold GetState
  simp only [hdir, osOpen, hopen, hfile, hdec]

/-- C7: for every document decoded from the state file that is not the all-zero value,
`GetState` fails with the fixed incompatibility message exactly when the document's
`Version` is below 3, fails with the newer-version message naming that `Version`
exactly when it is above `STATE_VERSION`, and otherwise, for versions 3 to 10, returns
the decoded document unchanged with no error. -/
theorem GetState_version_gate (env : Env β) (dir : String) (w : World β) (file : β)
    (doc : State) (hdir : env.stat dir = none)
    (hopen : env.openFault (filepathJoin dir StateFileName) = none)
    (hfile : w.files (filepathJoin dir StateFileName) = some file)
    (hdec : env.decode file = (doc, none)) (hne : doc ≠ State.zero) :
    ((GetState env dir w).2 = some incompatibleMessage ↔ doc.Version < 3) ∧
    ((GetState env dir w).2 = some (newerVersionMessage doc.Version) ↔
      doc.Version > STATE_VERSION) ∧
    ((GetState env dir w).2 = none ↔ 3 ≤ doc.Version ∧ doc.Version ≤ STATE_VERSION) ∧
    (3 ≤ doc.Version → doc.Version ≤ STATE_VERSION → GetState env dir w = (doc, none)) ∧
    STATE_VERSION = 10 := by
  have hz : doc.isZero = false := (State.isZero_eq_false_iff doc).2 hne
  rw [GetState_of_decoded env dir w file doc hdir hopen hfile hdec]
  simp only [hz, Bool.false_eq_true, if_false]
  have hne1 := newerVersionMessage_ne doc.Version
  have hne2 : incompatibleMessage ≠ newerVersionMessage doc.Version := fun h => hne1 h.symm
  have hv : STATE_VERSION = 10 := rfl
  simp only [hv]
  by_cases h3 : doc.Version < 3
  · have h10 : ¬ doc.Version > 10 := by omega
    have h3' : ¬ 3 ≤ doc.Version := by omega
    simp [h3, h10, h3', hne2]
  · by_cases h10 : doc.Version > 10
    · have h10' : ¬ doc.Version ≤ 10 := by omega
      simp [h3, h10, h10', hne1]
    · have h3' : 3 ≤ doc.Version := by omega
      have h10' : doc.Version ≤ 10 := by omega
      simp [h3, h10, h3', h10']

/-- Witness of C7: a state file holding a document of version 2. -/
theorem GetState_version_gate_witness :
    ((GetState plainEnv "some-dir" (worldWith (versionOnlyState 2))).2
        = some incompatibleMessage ↔ (versionOnlyState 2).Version < 3) ∧
    ((GetState plainEnv "some-dir" (worldWith (versionOnlyState 2))).2
        = some (newerVersionMessage (versionOnlyState 2).Version) ↔
      (versionOnlyState 2).Version > STATE_VERSION) ∧
    ((GetState plainEnv "some-dir" (worldWith (versionOnlyState 2))).2 = none ↔
      3 ≤ (versionOnlyState 2).Version ∧ (versionOnlyState 2).Version ≤ STATE_VERSION) ∧
    (3 ≤ (versionOnlyState 2).Version → (versionOnlyState 2).Version ≤ STATE_VERSION →
      GetState plainEnv "some-dir" (worldWith (versionOnlyState 2))
        = (versionOnlyState 2, none)) ∧
    STATE_VERSION = 10 :=
  GetState_version_gate plainEnv "some-dir" (worldWith (versionOnlyState 2))
    (versionOnlyState 2) (versionOnlyState 2) rfl rfl rfl rfl
    (fun h => by simpa [versionOnlyState, State.zero] using congrArg State.Version h)

/-- C8: for every existing directory that holds no `bbl-state.json` (and where
`os.Open` meets no fault of its own), `GetState` returns the zero-value `State` and no
error. -/
theorem GetState_missing_file (env : Env β) (dir : String) (w : World β)
    (hdir : env.stat dir = none)
    (hopen : env.openFault (filepathJoin dir StateFileName) = none)
    (hfile : w.files (filepathJoin dir StateFileName) = none) :
    GetState env dir w = (State.zero, none) := by
  unfold GetState
  simp [hdir, osOpen, hopen, hfile]

/-- Witness of C8: an empty directory. -/
theorem GetState_missing_file_witness :
    GetState plainEnv "some-dir" emptyWorld = (State.zero, none) :=
  GetState_missing_file plainEnv "some-dir" emptyWorld rfl rfl rfl

/-- C9: for every state file whose contents decode to the all-zero document,
`GetState` returns exactly `State{Version: STATE_VERSION}` with no error: the raw
version 0 does not trigger the incompatibility error. -/
theorem GetState_normalises_zero (env : Env β) (dir : String) (w : World β) (file : β)
    (hdir : env.stat dir = none)
    (hopen : env.openFault (filepathJoin dir StateFileName) = none)
    (hfile : w.files (filepathJoin dir StateFileName) = some file)
    (hdec : env.decode file = (State.zero, none)) :
    GetState env dir w = ({ State.zero with Version := STATE_VERSION }, none) ∧
    State.zero.Version = 0 ∧
    (GetState env dir w).2 ≠ some incompatibleMessage := by
  have hz : State.zero.isZero = true := (State.isZero_iff _).2 rfl
  rw [GetState_of_decoded env dir w file State.zero hdir hopen hfile hdec]
  simp only [hz, if_true]
  have h3 : ¬ STATE_VERSION < 3 := by decide
  have h10 : ¬ STATE_VERSION > STATE_VERSION := by decide
  simp [h3, h10, State.zero]

/-- Witness of C9: a state file holding the all-zero document. -/
theorem GetState_normalises_zero_witness :
    GetState plainEnv "some-dir" (worldWith State.zero)
      = ({ State.zero with Version := STATE_VERSION }, none) ∧
    State.zero.Version = 0 ∧
    (GetState plainEnv "some-dir" (worldWith State.zero)).2 ≠ some incompatibleMessage :=
  GetState_normalises_zero plainEnv "some-dir" (worldWith State.zero) State.zero
    rfl rfl rfl rfl

end Storage

namespace Bosh

/-! ## `makeRequests` -/

/-- When the first `left` calls all fail in transport, the loop makes exactly `left`
calls and ends holding the outcome of the last one. -/
theorem makeRequests.loop_all_fail (retryDelay : Int) (httpClient : HTTPClient)
    (request : Request) (left : Nat) :
    ∀ (cur : Option Response × Option String) (w : Net), 0 < left →
      (∀ j, j < left → (httpClient.Do (w.calls + j) request).2 ≠ none) →
      (makeRequests.loop retryDelay httpClient request left cur w).1
          = httpClient.Do (w.calls + (left - 1)) request ∧
        (makeRequests.loop retryDelay httpClient request left cur w).2.calls
          = w.calls + left := by
  induction left with
  | zero => intro cur w h; exact absurd h (Nat.lt_irrefl 0)
  | succ left ih =>
    intro cur w _ hfail
    have h0 := hfail 0 (Nat.succ_pos left)
    rw [Nat.add_zero] at h0
    rcases hd : httpClient.Do w.calls request with ⟨response, err⟩
    rw [hd] at h0
    cases err with
    | none => exact absurd rfl h0
    | some e =>
      simp only [makeRequests.loop, HTTPClient.call, hd, timeSleep]
      cases left with
      | zero => simp [makeRequests.loop, hd]
      | succ left =>
        have hrec := ih (response, some e)
          { calls := w.calls + 1, trace := w.trace ++ [Event.request w.calls] ++ [Event.sleep retryDelay] }
          (Nat.succ_pos left)
          (fun j hj => by
            have := hfail (j + 1) (Nat.succ_lt_succ hj)
            simpa [Nat.add_assoc, Nat.add_comm 1 j] using this)
        have e1 : w.calls + 1 + (left + 1 - 1) = w.calls + (left + 1 + 1 - 1) := by omega
        have e2 : w.calls + 1 + (left + 1) = w.calls + (left + 1 + 1) := by omega
        simp only [e1, e2] at hrec
        exact hrec

/-- When call number `m` is the first without a transport error and the loop has more
than `m` iterations left, it makes exactly `m + 1` calls and ends holding that call's
response and no error. -/
theorem makeRequests.loop_first_success (retryDelay : Int) (httpClient : HTTPClient)
    (request : Request) (left : Nat) :
    ∀ (m : Nat) (cur : Option Response × Option String) (w : Net), m < left →
      (∀ j, j < m → (httpClient.Do (w.calls + j) request).2 ≠ none) →
      (httpClient.Do (w.calls + m) request).2 = none →
      (makeRequests.loop retryDelay httpClient request left cur w).1
          = ((httpClient.Do (w.calls + m) request).1, none) ∧
        (makeRequests.loop retryDelay httpClient request left cur w).2.calls
          = w.calls + (m + 1) := by
  induction left with
  | zero => intro m cur w h; exact absurd h (Nat.not_lt_zero m)
  | succ left ih =>
    intro m cur w hm hfail hok
    rcases hd : httpClient.Do w.calls request with ⟨response, err⟩
    cases m with
    | zero =>
      simp only [Nat.add_zero, hd] at hok ⊢
      subst hok
      simp [makeRequests.loop, HTTPClient.call, hd]
    | succ m =>
      have h0 := hfail 0 (Nat.succ_pos m)
      rw [Nat.add_zero, hd] at h0
      cases err with
      | none => exact absurd rfl h0
      | some e =>
        simp only [makeRequests.loop, HTTPClient.call, hd, timeSleep]
        have hrec := ih m (response, some e)
          { calls := w.calls + 1, trace := w.trace ++ [Event.request w.calls] ++ [Event.sleep retryDelay] }
          (Nat.lt_of_succ_lt_succ hm)
          (fun j hj => by
            have := hfail (j + 1) (Nat.succ_lt_succ hj)
            simpa [Nat.add_assoc, Nat.add_comm 1 j] using this)
          (by simpa [Nat.add_assoc, Nat.add_comm 1 m] using hok)
        have e1 : w.calls + 1 + m = w.calls + (m + 1) := by omega
        have e2 : w.calls + 1 + (m + 1) = w.calls + (m + 1 + 1) := by omega
        simp only [e1, e2] at hrec
        exact hrec

/-- C10: for every attempt limit `n = MAX_RETRIES ≥ 1` and every sequence of transport
outcomes: if attempt `k ≤ n` is the first to return no transport error, `makeRequests`
calls `Do` exactly `k` times and returns that attempt's response with no error; if all
`n` attempts fail it calls `Do` exactly `n` times and returns the error
"made n attempts, last error: <error of the n-th attempt>". -/
theorem makeRequests_attempts (n : Nat) (hn : 1 ≤ n) (retryDelay : Int)
    (httpClient : HTTPClient) (request : Request) (w : Net) :
    (∀ k, 1 ≤ k → k ≤ n →
      (∀ j, j < k - 1 → (httpClient.Do (w.calls + j) request).2 ≠ none) →
      (httpClient.Do (w.calls + (k - 1)) request).2 = none →
      (makeRequests (n : Int) retryDelay httpClient request w).1
          = ((httpClient.Do (w.calls + (k - 1)) request).1, none) ∧
        (makeRequests (n : Int) retryDelay httpClient request w).2.calls = w.calls + k) ∧
    ((∀ j, j < n → (httpClient.Do (w.calls + j) request).2 ≠ none) →
      ∀ lastErr, (httpClient.Do (w.calls + (n - 1)) request).2 = some lastErr →
      (makeRequests (n : Int) retryDelay httpClient request w).1
          = (some Response.zero,
              some ("made " ++ toString (n : Int) ++ " attempts, last error: " ++ lastErr)) ∧
        (makeRequests (n : Int) retryDelay httpClient request w).2.calls = w.calls + n) := by
  refine ⟨fun k hk1 hkn hfail hok => ?_, fun hfail lastErr hlast => ?_⟩
  · obtain ⟨h1, h2⟩ := makeRequests.loop_first_success retryDelay httpClient request n
      (k - 1) (none, none) w (by omega) hfail hok
    have hk : k - 1 + 1 = k := by omega
    rw [hk] at h2
    unfold makeRequests
    rw [Int.toNat_ofNat]
    rcases hl : makeRequests.loop retryDelay httpClient request n (none, none) w
      with ⟨⟨response, err⟩, w2⟩
    rw [hl] at h1 h2
    simp only [Prod.mk.injEq] at h1
    obtain ⟨hr, he⟩ := h1
    subst he
    simp only at h2 ⊢
    exact ⟨by rw [hr], h2⟩
  · obtain ⟨h1, h2⟩ := makeRequests.loop_all_fail retryDelay httpClient request n
      (none, none) w hn hfail
    unfold makeRequests
    rw [Int.toNat_ofNat]
    rcases hl : makeRequests.loop retryDelay httpClient request n (none, none) w
      with ⟨⟨response, err⟩, w2⟩
    rw [hl] at h1 h2
    simp only at h1 h2
    rw [← h1] at hlast
    simp only at hlast
    subst hlast
    exact ⟨rfl, h2⟩

/-- Witness of C10, with the limit 5: a client that fails twice is called three
times and its third response is returned; a client that always fails is called five
times and the error names the attempt count and the last transport error. -/
theorem makeRequests_attempts_witness :
    ((makeRequests MAX_RETRIES RETRY_DELAY flakyClient infoRequest freshNet).1
        = (some ⟨200, "some-body"⟩, none) ∧
      (makeRequests MAX_RETRIES RETRY_DELAY flakyClient infoRequest freshNet).2.calls = 3) ∧
    ((makeRequests MAX_RETRIES RETRY_DELAY deadClient infoRequest freshNet).1
        = (some Response.zero, some "made 5 attempts, last error: connection refused") ∧
      (makeRequests MAX_RETRIES RETRY_DELAY deadClient infoRequest freshNet).2.calls = 5) :=
  ⟨(makeRequests_attempts 5 (by decide) RETRY_DELAY flakyClient infoRequest freshNet).1 3
      (by decide) (by decide) (by decide) rfl,
    (makeRequests_attempts 5 (by decide) RETRY_DELAY deadClient infoRequest freshNet).2
      (by decide) "connection refused" rfl⟩

end Bosh

namespace Bosh

/-! ## `Info` and `UpdateCloudConfig` -/

/-- With at least one attempt allowed, a first call that returns no transport error
ends `makeRequests` after that one call and without a sleep. -/
theorem makeRequests_of_first_ok (maxRetries retryDelay : Int) (hn : 1 ≤ maxRetries)
    (httpClient : HTTPClient) (request : Request) (w : Net) (response : Option Response)
    (hdo : httpClient.Do w.calls request = (response, none)) :
    makeRequests maxRetries retryDelay httpClient request w =
      ((response, none),
        { calls := w.calls + 1, trace := w.trace ++ [Event.request w.calls] }) := by
  obtain ⟨left, hleft⟩ : ∃ left, maxRetries.toNat = left + 1 :=
    ⟨maxRetries.toNat - 1, by omega⟩
  unfold makeRequests
  rw [hleft]
  simp [makeRequests.loop, HTTPClient.call, hdo]

/-- C11: for every director response delivered without a transport error, `Info`
(status other than 200) and `UpdateCloudConfig` (status other than 201) return
"unexpected http response <code> <status text>" after exactly one call of the HTTP
client's `Do` and without sleeping: the status error is not retried. `MAX_RETRIES` is
any limit of at least one attempt. -/
theorem http_error_status_is_terminal (lib : Lib) (maxRetries retryDelay : Int)
    (hn : 1 ≤ maxRetries) (c : client) (w : Net) :
    (∀ request response,
      lib.newRequest "GET" (c.directorAddress ++ "/info") "" = .ok request →
      c.httpClient.Do w.calls request = (some response, none) →
      response.StatusCode ≠ 200 →
      c.Info lib maxRetries retryDelay w =
        (.returned (Info.zero,
            some ("unexpected http response " ++ toString response.StatusCode ++ " "
              ++ lib.statusText response.StatusCode)),
          { calls := w.calls + 1, trace := w.trace ++ [Event.request w.calls] })) ∧
    (∀ yaml request host boshHost port response,
      lib.newRequest "POST" (c.directorAddress ++ "/cloud_configs") yaml = .ok request →
      lib.urlParseHost c.directorAddress = .ok host →
      lib.splitHostPort host = .ok (boshHost, port) →
      (lib.confClient
          { ClientID := c.username, ClientSecret := c.password,
            TokenURL := "https://" ++ boshHost ++ ":8443/oauth/token" }
          c.httpClient).Do w.calls
        { request with Header := headerSet request.Header "Content-Type" "text/yaml" }
          = (some response, none) →
      response.StatusCode ≠ 201 →
      c.UpdateCloudConfig lib maxRetries retryDelay yaml w =
        (.returned
            (some ("unexpected http response " ++ toString response.StatusCode ++ " "
              ++ lib.statusText response.StatusCode)),
          { calls := w.calls + 1, trace := w.trace ++ [Event.request w.calls] })) := by
  constructor
  · intro request response hreq hdo hcode
    unfold client.Info
    rw [hreq]
    simp only
    rw [makeRequests_of_first_ok maxRetries retryDelay hn c.httpClient request w _ hdo]
    simp [StatusOK, hcode, unexpectedResponse]
  · intro yaml request host boshHost port response hreq hhost hsplit hdo hcode
    unfold client.UpdateCloudConfig
    rw [hreq]
    simp only [hhost, hsplit]
    rw [makeRequests_of_first_ok maxRetries retryDelay hn _ _ w _ hdo]
    simp [StatusCreated, hcode, unexpectedResponse]

/-- Witness of C11: a director that answers 500 to `Info` and to `UpdateCloudConfig`
is called once by each, with five attempts allowed. -/
theorem http_error_status_is_terminal_witness :
    (NewClient failingDirector "https://director:25555" "admin" "some-password" "some-ca").Info
        plainLib MAX_RETRIES RETRY_DELAY freshNet =
      (.returned (Info.zero, some "unexpected http response 500 Internal Server Error"),
        { calls := 1, trace := [Event.request 0] }) ∧
    (NewClient failingDirector "https://director:25555" "admin" "some-password"
        "some-ca").UpdateCloudConfig plainLib MAX_RETRIES RETRY_DELAY "some-yaml" freshNet =
      (.returned (some "unexpected http response 500 Internal Server Error"),
        { calls := 1, trace := [Event.request 0] }) :=
  ⟨(http_error_status_is_terminal plainLib MAX_RETRIES RETRY_DELAY (by decide)
      (NewClient failingDirector "https://director:25555" "admin" "some-password" "some-ca")
      freshNet).1 _ ⟨500, "some-body"⟩ rfl rfl (by decide),
    (http_error_status_is_terminal plainLib MAX_RETRIES RETRY_DELAY (by decide)
      (NewClient failingDirector "https://director:25555" "admin" "some-password" "some-ca")
      freshNet).2 "some-yaml" _ "director:25555" "director" "25555" ⟨500, "some-body"⟩
      rfl rfl rfl rfl (by decide)⟩

/-- C12, at the failing input: with five attempts allowed and a client that always
fails in transport, `makeRequests` makes five attempts and sleeps five times, the last
sleep following the final attempt, before it returns the error. -/
theorem makeRequests_sleeps_after_last_attempt :
    (makeRequests MAX_RETRIES RETRY_DELAY deadClient infoRequest freshNet).2.trace =
      [Event.request 0, Event.sleep RETRY_DELAY, Event.request 1, Event.sleep RETRY_DELAY,
        Event.request 2, Event.sleep RETRY_DELAY, Event.request 3, Event.sleep RETRY_DELAY,
        Event.request 4, Event.sleep RETRY_DELAY] ∧
    (makeRequests MAX_RETRIES RETRY_DELAY deadClient infoRequest freshNet).2.calls = 5 ∧
    ((makeRequests MAX_RETRIES RETRY_DELAY deadClient infoRequest freshNet).2.trace.filter
      (fun e => e == Event.sleep RETRY_DELAY)).length = 5 ∧
    (makeRequests MAX_RETRIES RETRY_DELAY deadClient infoRequest freshNet).1.2 =
      some "made 5 attempts, last error: connection refused" :=
  ⟨rfl, rfl, by decide, rfl⟩

end Bosh

namespace Commands

open Storage

/-! ## `StateQuery` -/

/-- The director address that is synthesised from an external IP is never empty. -/
theorem synthesised_address_ne_empty (externalIP : String) :
    "https://" ++ externalIP ++ ":25555" ≠ "" := by
  intro h
  have h2 := congrArg String.length h
  simp [String.length_append] at h2
  exact absurd h2.1.1 (by decide)

/-- `Execute` once the property value is resolved without error. -/
theorem StateQuery.Execute_of_plain (s : StateQuery) (flags : List String) (state : State)
    (printed : List String) (value : String)
    (hname : s.propertyName ≠ DirectorAddressPropertyName)
    (hvalue :
      (if s.propertyName == JumpboxAddressPropertyName then state.Jumpbox.URL
        else if s.propertyName == DirectorUsernamePropertyName then state.BOSH.DirectorUsername
        else if s.propertyName == DirectorPasswordPropertyName then state.BOSH.DirectorPassword
        else if s.propertyName == DirectorCACertPropertyName then state.BOSH.DirectorSSLCA
        else if s.propertyName == EnvIDPropertyName then state.EnvID
        else "") = value) :
    s.Execute flags state printed =
      if value = "" then (.returned (some (couldNotRetrieve s.propertyName)), printed)
      else (.returned none, printed ++ [value]) := by
  subst hvalue
  unfold StateQuery.Execute
  simp only [beq_iff_eq, hname, if_false]
  by_cases h1 : s.propertyName = JumpboxAddressPropertyName
  · simp only [if_pos h1]
  simp only [if_neg h1]
  by_cases h2 : s.propertyName = DirectorUsernamePropertyName
  · simp only [if_pos h2]
  simp only [if_neg h2]
  by_cases h3 : s.propertyName = DirectorPasswordPropertyName
  · simp only [if_pos h3]
  simp only [if_neg h3]
  by_cases h4 : s.propertyName = DirectorCACertPropertyName
  · simp only [if_pos h4]
  simp only [if_neg h4]
  by_cases h5 : s.propertyName = EnvIDPropertyName
  · simp only [if_pos h5]
  · simp only [if_neg h5]

/-- C13: for every state and each of the property names environment id, jumpbox
address, director username, director password and director ca cert, `Execute` prints
exactly the corresponding field, once, and returns no error when the field is
non-empty; when the field is empty, or the property name is none of the six known
ones, it prints nothing and returns "Could not retrieve <property name>, please make
sure you are targeting the proper state dir.". -/
theorem StateQuery.Execute_prints_property (s : StateQuery) (flags : List String)
    (state : State) (printed : List String) :
    (∀ p ∈ [(EnvIDPropertyName, state.EnvID),
          (JumpboxAddressPropertyName, state.Jumpbox.URL),
          (DirectorUsernamePropertyName, state.BOSH.DirectorUsername),
          (DirectorPasswordPropertyName, state.BOSH.DirectorPassword),
          (DirectorCACertPropertyName, state.BOSH.DirectorSSLCA)],
      s.propertyName = p.1 →
        (p.2 ≠ "" → s.Execute flags state printed = (.returned none, printed ++ [p.2])) ∧
        (p.2 = "" → s.Execute flags state printed =
          (.returned (some ("Could not retrieve " ++ p.1
            ++ ", please make sure you are targeting the proper state dir.")), printed))) ∧
    (s.propertyName ∉ [EnvIDPropertyName, JumpboxAddressPropertyName,
        DirectorUsernamePropertyName, DirectorPasswordPropertyName,
        DirectorAddressPropertyName, DirectorCACertPropertyName] →
      s.Execute flags state printed =
        (.returned (some ("Could not retrieve " ++ s.propertyName
          ++ ", please make sure you are targeting the proper state dir.")), printed)) := by
  constructor
  · intro p hp hname
    have hexec : s.Execute flags state printed =
        if p.2 = "" then (.returned (some (couldNotRetrieve s.propertyName)), printed)
        else (.returned none, printed ++ [p.2]) := by
      apply StateQuery.Execute_of_plain
      · rw [hname]
        simp only [List.mem_cons, List.mem_singleton, List.not_mem_nil, or_false] at hp
        rcases hp with h | h | h | h | h <;> subst h <;> dsimp only <;> decide
      · rw [hname]
        simp only [List.mem_cons, List.mem_singleton, List.not_mem_nil, or_false] at hp
        rcases hp with h | h | h | h | h <;> rw [h] <;> rfl
    rw [hexec, hname]
    constructor
    · intro h; rw [if_neg h]
    · intro h; rw [if_pos h]; rfl
  · intro hname
    simp only [List.mem_cons, List.mem_singleton, List.not_mem_nil, or_false, not_or] at hname
    obtain ⟨h1, h2, h3, h4, h5, h6⟩ := hname
    have hexec := StateQuery.Execute_of_plain s flags state printed "" h5
      (by simp [h1, h2, h3, h4, h6])
    rw [hexec]
    rfl

/-- Witness of C13: the director username of a state with a director is printed, and
the same query on the all-zero state fails. -/
theorem StateQuery.Execute_prints_property_witness :
    (queryWith [] DirectorUsernamePropertyName).Execute [] directorState []
      = (.returned none, ["some-director-username"]) ∧
    (queryWith [] DirectorUsernamePropertyName).Execute [] State.zero []
      = (.returned (some
          "Could not retrieve director username, please make sure you are targeting the proper state dir."),
        []) :=
  ⟨((StateQuery.Execute_prints_property (queryWith [] DirectorUsernamePropertyName) []
      directorState []).1 (DirectorUsernamePropertyName, "some-director-username")
      (by simp [directorState, BOSH.zero]) rfl).1 (by decide),
    ((StateQuery.Execute_prints_property (queryWith [] DirectorUsernamePropertyName) []
      State.zero []).1 (DirectorUsernamePropertyName, "")
      (by simp [State.zero, BOSH.zero]) rfl).2 rfl⟩

/-- C14: when the state validator succeeds, `CheckFastFails` returns "Error BBL does
not manage this director." if and only if `state.NoDirector` is true and the property
is neither director address nor environment id, so that director username, director
password, director ca cert and jumpbox address fail on a director-less state while
environment id and director address pass; when the validator fails, its error is
returned instead. -/
theorem StateQuery.CheckFastFails_iff (s : StateQuery) (flags : List String) (state : State) :
    (s.stateValidator = none →
      (s.CheckFastFails flags state = some "Error BBL does not manage this director." ↔
        state.NoDirector = true ∧ s.propertyName ≠ DirectorAddressPropertyName ∧
          s.propertyName ≠ EnvIDPropertyName) ∧
      (s.CheckFastFails flags state = none ↔
        ¬ (state.NoDirector = true ∧ s.propertyName ≠ DirectorAddressPropertyName ∧
          s.propertyName ≠ EnvIDPropertyName))) ∧
    (s.stateValidator = none → state.NoDirector = true →
      (s.propertyName ∈ [DirectorUsernamePropertyName, DirectorPasswordPropertyName,
          DirectorCACertPropertyName, JumpboxAddressPropertyName] →
        s.CheckFastFails flags state = some "Error BBL does not manage this director.") ∧
      (s.propertyName ∈ [EnvIDPropertyName, DirectorAddressPropertyName] →
        s.CheckFastFails flags state = none)) ∧
    (∀ err, s.stateValidator = some err → s.CheckFastFails flags state = some err) := by
  refine ⟨fun hv => ?_, fun hv hnd => ⟨fun hp => ?_, fun hp => ?_⟩, fun err hv => ?_⟩
  · unfold StateQuery.CheckFastFails
    rw [hv]
    by_cases hc : state.NoDirector = true ∧ s.propertyName ≠ DirectorAddressPropertyName ∧
        s.propertyName ≠ EnvIDPropertyName
    · simp [hc]
    · have hc2 := hc
      simp only [not_and, ne_eq, Decidable.not_not] at hc2
      constructor
      · constructor
        · intro h
          exfalso
          revert h
          cases hn : state.NoDirector
          · simp
          · by_cases ha : s.propertyName = DirectorAddressPropertyName
            · simp [ha]
            · simp [ha, hc2 hn ha]
        · intro h; exact absurd h hc
      · constructor
        · intro _; exact hc
        · intro _
          cases hn : state.NoDirector
          · simp
          · by_cases ha : s.propertyName = DirectorAddressPropertyName
            · simp [ha]
            · simp [ha, hc2 hn ha]
  · unfold StateQuery.CheckFastFails
    rw [hv, hnd]
    simp only [List.mem_cons, List.mem_singleton, List.not_mem_nil, or_false] at hp
    rcases hp with h | h | h | h <;> rw [h] <;> rfl
  · unfold StateQuery.CheckFastFails
    rw [hv, hnd]
    simp only [List.mem_cons, List.mem_singleton, List.not_mem_nil, or_false] at hp
    rcases hp with h | h <;> rw [h] <;> rfl
  · unfold StateQuery.CheckFastFails
    rw [hv]

/-- Witness of C14: on a director-less state the jumpbox address is refused and the
environment id is let through. -/
theorem StateQuery.CheckFastFails_iff_witness :
    (queryWith [] JumpboxAddressPropertyName).CheckFastFails [] noDirectorState
      = some "Error BBL does not manage this director." ∧
    (queryWith [] EnvIDPropertyName).CheckFastFails [] noDirectorState = none :=
  ⟨((StateQuery.CheckFastFails_iff (queryWith [] JumpboxAddressPropertyName) []
      noDirectorState).2.1 rfl rfl).1 (by decide),
    ((StateQuery.CheckFastFails_iff (queryWith [] EnvIDPropertyName) []
      noDirectorState).2.1 rfl rfl).2 (by decide)⟩

/-- For the property director address, `Execute` is `getDirectorAddress` followed by the
emptiness check and the print. -/
theorem StateQuery.Execute_of_director_address (s : StateQuery) (flags : List String)
    (state : State) (printed : List String)
    (hname : s.propertyName = DirectorAddressPropertyName) :
    s.Execute flags state printed =
      match s.getDirectorAddress state with
      | .panicked reason => (.panicked reason, printed)
      | .returned (_, some err) => (.returned (some err), printed)
      | .returned (propertyValue, none) =>
        if propertyValue = "" then
          (.returned (some (couldNotRetrieve DirectorAddressPropertyName)), printed)
        else (.returned none, printed ++ [propertyValue]) := by
  have h1 : (DirectorAddressPropertyName == JumpboxAddressPropertyName) = false := by decide
  have h2 : (DirectorAddressPropertyName == DirectorAddressPropertyName) = true := by decide
  unfold StateQuery.Execute
  rw [hname]
  simp only [h1, h2, if_true, Bool.false_eq_true, if_false, beq_iff_eq]

/-- C15: for the property director address, `Execute` resolves the value as
`state.BOSH.DirectorAddress` when `NoDirector` is false, and when `NoDirector` is true
as "https://<ip>:25555", where `<ip>` is the `BOSHEIP` output of the described stack if
`state.Stack.Name` is non-empty and otherwise the string held by the `external_ip`
terraform output; the resolved value is printed; an error from either lookup is
returned unchanged and nothing is printed. -/
theorem StateQuery.Execute_director_address (s : StateQuery) (flags : List String)
    (state : State) (printed : List String)
    (hname : s.propertyName = DirectorAddressPropertyName) :
    (state.NoDirector = false →
      s.getDirectorAddress state = .returned (state.BOSH.DirectorAddress, none) ∧
      (state.BOSH.DirectorAddress ≠ "" →
        s.Execute flags state printed
          = (.returned none, printed ++ [state.BOSH.DirectorAddress]))) ∧
    (state.NoDirector = true → state.Stack.Name ≠ "" →
      (∀ stack, s.infrastructureManager state.Stack.Name = .ok stack →
        s.getDirectorAddress state =
            .returned ("https://" ++ mapIndex stack.Outputs "BOSHEIP" ++ ":25555", none) ∧
          s.Execute flags state printed =
            (.returned none,
              printed ++ ["https://" ++ mapIndex stack.Outputs "BOSHEIP" ++ ":25555"])) ∧
      (∀ err, s.infrastructureManager state.Stack.Name = .error err →
        s.Execute flags state printed = (.returned (some err), printed))) ∧
    (state.NoDirector = true → state.Stack.Name = "" →
      (∀ outputs ip, s.terraformManager state = .ok outputs →
        outputs.lookup "external_ip" = some (Value.string ip) →
        s.getDirectorAddress state = .returned ("https://" ++ ip ++ ":25555", none) ∧
          s.Execute flags state printed =
            (.returned none, printed ++ ["https://" ++ ip ++ ":25555"])) ∧
      (∀ err, s.terraformManager state = .error err →
        s.Execute flags state printed = (.returned (some err), printed))) := by
  have hexec := StateQuery.Execute_of_director_address s flags state printed hname
  refine ⟨fun hnd => ?_, fun hnd hstack => ⟨fun stack hd => ?_, fun err hd => ?_⟩,
    fun hnd hstack => ⟨fun outputs ip ho hip => ?_, fun err ho => ?_⟩⟩
  · have hg : s.getDirectorAddress state = .returned (state.BOSH.DirectorAddress, none) := by
      simp [StateQuery.getDirectorAddress, hnd]
    refine ⟨hg, fun hne => ?_⟩
    rw [hexec, hg]
    simp [hne]
  · have hg : s.getDirectorAddress state =
        .returned ("https://" ++ mapIndex stack.Outputs "BOSHEIP" ++ ":25555", none) := by
      simp [StateQuery.getDirectorAddress, StateQuery.getEIP, hnd, hstack, hd]
    refine ⟨hg, ?_⟩
    rw [hexec, hg]
    simp only [if_neg (synthesised_address_ne_empty _)]
  · have hg : s.getDirectorAddress state = .returned ("", some err) := by
      simp [StateQuery.getDirectorAddress, StateQuery.getEIP, hnd, hstack, hd]
    rw [hexec, hg]
  · have hg : s.getDirectorAddress state = .returned ("https://" ++ ip ++ ":25555", none) := by
      simp [StateQuery.getDirectorAddress, StateQuery.getEIP, hnd, hstack, ho, outputsIndex,
        hip, assertString]
    refine ⟨hg, ?_⟩
    rw [hexec, hg]
    simp only [if_neg (synthesised_address_ne_empty _)]
  · have hg : s.getDirectorAddress state = .returned ("", some err) := by
      simp [StateQuery.getDirectorAddress, StateQuery.getEIP, hnd, hstack, ho]
    rw [hexec, hg]

/-- Witness of C15: a director-less state without stack name, queried for the director
address with the terraform output `external_ip` holding a string. -/
theorem StateQuery.Execute_director_address_witness :
    (queryWith [("external_ip", Value.string "203.0.113.9")]
        DirectorAddressPropertyName).getDirectorAddress noDirectorState
      = .returned ("https://203.0.113.9:25555", none) ∧
    (queryWith [("external_ip", Value.string "203.0.113.9")]
        DirectorAddressPropertyName).Execute [] noDirectorState []
      = (.returned none, ["https://203.0.113.9:25555"]) :=
  ((StateQuery.Execute_director_address
    (queryWith [("external_ip", Value.string "203.0.113.9")] DirectorAddressPropertyName) []
    noDirectorState [] rfl).2.2 rfl rfl).1 _ "203.0.113.9" rfl rfl

/-- C19, at the failing inputs: for a director-less state without stack name, a
terraform outputs map returned without error that has no `external_ip` entry, or holds
a number there, makes `Execute` panic in the type assertion: it neither prints an
address nor returns an error. -/
theorem StateQuery.Execute_panics_on_external_ip :
    noDirectorState.NoDirector = true ∧ noDirectorState.Stack.Name = "" ∧
    (queryWith [] DirectorAddressPropertyName).Execute [] noDirectorState []
      = (.panicked "interface conversion: interface {} is nil, not string", []) ∧
    (queryWith [("external_ip", Value.number 7)] DirectorAddressPropertyName).Execute []
        noDirectorState []
      = (.panicked "interface conversion: interface {} is float64, not string", []) :=
  ⟨rfl, rfl, rfl, rfl⟩

/-! ## Compound errors -/

/-- C16: for every primary error with message `p` and secondary error with message `s`,
the error surfaced when a step fails and the recovery, or the persistence of the
recovered state, also fails has exactly the message
"the following errors occurred:\n" + p + ",\n" + s, primary first; when the secondary
error is nil the primary error is returned unchanged, as for the apply failure
"failed to apply" whose recovered state is persisted successfully. -/
theorem Combine_message (p s : String) :
    Combine p (some s) = "the following errors occurred:\n" ++ p ++ ",\n" ++ s ∧
    Combine p none = p ∧
    (∀ save, (surfaceFailure ⟨p, some (.error s)⟩ save).1
      = "the following errors occurred:\n" ++ p ++ ",\n" ++ s) ∧
    (∀ save recovered, save recovered = some s →
      (surfaceFailure ⟨p, some (.ok recovered)⟩ save).1
        = "the following errors occurred:\n" ++ p ++ ",\n" ++ s) ∧
    (∀ save recovered, save recovered = none →
      surfaceFailure ⟨p, some (.ok recovered)⟩ save = (p, [recovered])) ∧
    (∀ save, surfaceFailure ⟨p, none⟩ save = (p, [])) ∧
    (surfaceFailure
        ⟨"failed to apply", some (.ok { State.zero with TFState := "some-updated-tf-state" })⟩
        (fun _ => none)).1 = "failed to apply" := by
  refine ⟨rfl, rfl, fun _ => rfl, fun save recovered h => ?_, fun save recovered h => ?_,
    fun _ => rfl, rfl⟩
  · simp [surfaceFailure, h, Combine]
  · simp [surfaceFailure, h, Combine]

/-- Witness of C16: the messages `commands/gcp_up_test.go` expects. -/
theorem Combine_message_witness :
    Combine "failed to apply" (some "state failed to be set")
      = "the following errors occurred:\nfailed to apply,\nstate failed to be set" ∧
    (surfaceFailure ⟨"failed to apply", some (.error "some-bbl-state-error")⟩
        (fun _ => none)).1
      = "the following errors occurred:\nfailed to apply,\nsome-bbl-state-error" ∧
    (surfaceFailure
        ⟨"failed to create", some (.ok State.zero)⟩
        (fun _ => some "state failed to be set")).1
      = "the following errors occurred:\nfailed to create,\nstate failed to be set" :=
  ⟨(Combine_message "failed to apply" "state failed to be set").1,
    (Combine_message "failed to apply" "some-bbl-state-error").2.2.1 (fun _ => none),
    (Combine_message "failed to create" "state failed to be set").2.2.2.1
      (fun _ => some "state failed to be set") State.zero rfl⟩

end Commands

namespace Gcp

open Storage

variable {κ π : Type}

/-! ## Splitting and joining -/

/-- Joining a non-empty list of pieces followed by one more piece. -/
theorem intercalate_append_singleton {α : Type} (sep : List α) (piece : List α) :
    ∀ pieces : List (List α), pieces ≠ [] →
      sep.intercalate (pieces ++ [piece]) = sep.intercalate pieces ++ sep ++ piece := by
  intro pieces
  induction pieces with
  | nil => intro h; exact absurd rfl h
  | cons head tail ih =>
    intro _
    cases tail with
    | nil => simp [List.intercalate, List.intersperse]
    | cons next tail =>
      have h := ih (List.cons_ne_nil next tail)
      simp only [List.intercalate, List.cons_append, List.intersperse, List.flatten_cons,
        List.append_assoc, List.append_eq] at h ⊢
      rw [h]

/-- Splitting a value on newlines, appending a key and joining with newlines again
gives the value, a newline and the key: the existing keys are preserved. -/
theorem stringsJoin_stringsSplit_append (value key : String) :
    stringsJoin (stringsSplit value '\n' ++ [key]) "\n" = value ++ "\n" ++ key := by
  have hsep : "\n".data = ['\n'] := rfl
  have hne : value.data.splitOn '\n' ≠ [] := List.splitOnP_ne_nil _ _
  apply String.ext
  simp only [stringsJoin, stringsSplit, List.map_append, List.map_map, List.map_cons,
    List.map_nil, String.data_append, hsep]
  have hid : (String.data ∘ String.mk) = (id : List Char → List Char) := by
    funext l; rfl
  rw [hid, List.map_id, intercalate_append_singleton _ _ _ hne, List.intercalate_splitOn]

/-! ## The loop over the metadata items -/

/-- Without an item keyed `sshKeys` the loop leaves the items as they are. -/
theorem KeyPairUpdater.Update.loop_of_absent (sshKeyItemValue : String) :
    ∀ items : List MetadataItems, (∀ item ∈ items, item.Key ≠ "sshKeys") →
      KeyPairUpdater.Update.loop sshKeyItemValue items = .returned (items, false) := by
  intro items
  induction items with
  | nil => intro _; rfl
  | cons item rest ih =>
    intro h
    have h1 : item.Key ≠ "sshKeys" := h item (List.mem_cons_self _ _)
    have h2 := ih (fun i hi => h i (List.mem_cons_of_mem _ hi))
    simp [KeyPairUpdater.Update.loop, h1, h2]

/-- The loop rewrites the first item keyed `sshKeys`, and only that one. -/
theorem KeyPairUpdater.Update.loop_of_present (sshKeyItemValue : String)
    (item : MetadataItems) (post : List MetadataItems) (old : String)
    (hkey : item.Key = "sshKeys") (hvalue : item.Value = some old) :
    ∀ pre : List MetadataItems, (∀ i ∈ pre, i.Key ≠ "sshKeys") →
      KeyPairUpdater.Update.loop sshKeyItemValue (pre ++ item :: post) =
        .returned
          (pre ++ { Key := "sshKeys", Value := some (old ++ "\n" ++ sshKeyItemValue) } :: post,
            true) := by
  intro pre
  induction pre with
  | nil =>
    intro _
    simp [KeyPairUpdater.Update.loop, hkey, hvalue, stringsJoin_stringsSplit_append]
  | cons head tail ih =>
    intro h
    have h1 : head.Key ≠ "sshKeys" := h head (List.mem_cons_self _ _)
    have h2 := ih (fun i hi => h i (List.mem_cons_of_mem _ hi))
    simp [KeyPairUpdater.Update.loop, h1, h2]

/-- The loop panics when the first item keyed `sshKeys` has a `nil` value. -/
theorem KeyPairUpdater.Update.loop_of_nil (sshKeyItemValue : String)
    (item : MetadataItems) (post : List MetadataItems)
    (hkey : item.Key = "sshKeys") (hvalue : item.Value = none) :
    ∀ pre : List MetadataItems, (∀ i ∈ pre, i.Key ≠ "sshKeys") →
      KeyPairUpdater.Update.loop sshKeyItemValue (pre ++ item :: post) =
        .panicked Go.nilDereference := by
  intro pre
  induction pre with
  | nil =>
    intro _
    simp [KeyPairUpdater.Update.loop, hkey, hvalue]
  | cons head tail ih =>
    intro h
    have h1 : head.Key ≠ "sshKeys" := h head (List.mem_cons_self _ _)
    have h2 := ih (fun i hi => h i (List.mem_cons_of_mem _ hi))
    simp [KeyPairUpdater.Update.loop, h1, h2]

/-- The loop returns, rather than panics, when every item keyed `sshKeys` has a value. -/
theorem KeyPairUpdater.Update.loop_returns (sshKeyItemValue : String) :
    ∀ items : List MetadataItems,
      (∀ item ∈ items, item.Key = "sshKeys" → item.Value ≠ none) →
      ∃ result, KeyPairUpdater.Update.loop sshKeyItemValue items = .returned result := by
  intro items
  induction items with
  | nil => intro _; exact ⟨_, rfl⟩
  | cons item rest ih =>
    intro h
    by_cases hkey : item.Key = "sshKeys"
    · have hv := h item (List.mem_cons_self _ _) hkey
      cases hval : item.Value with
      | none => exact absurd hval hv
      | some old =>
        exact ⟨((⟨"sshKeys",
            some (stringsJoin (stringsSplit old '\n' ++ [sshKeyItemValue]) "\n")⟩ :
              MetadataItems) :: rest, true),
          by simp [KeyPairUpdater.Update.loop, hkey, hval]⟩
    · obtain ⟨result, hr⟩ := ih (fun i hi => h i (List.mem_cons_of_mem _ hi))
      exact ⟨(item :: result.1, result.2), by simp [KeyPairUpdater.Update.loop, hkey, hr]⟩

/-! ## One pass of `Update` -/

/-- One pass of `Update` in which the key pair is generated, the project is fetched and
the loop returns: the metadata is handed to `SetCommonInstanceMetadata` once, and
`Update` either returns the key pair, or retries with the count incremented, or gives
up. -/
theorem KeyPairUpdater.Update_step (lib : Lib κ π) (k : KeyPairUpdater κ π) (w : World)
    (rsaKey : κ) (publicKey : π) (project : Project) (items : List MetadataItems)
    (updated : Bool)
    (hrsa : k.rsaKeyGenerator w.keyCalls = .ok rsaKey)
    (hssh : k.sshPublicKeyGenerator rsaKey = .ok publicKey)
    (hproject : k.client.GetProject w.projectCalls = .ok project)
    (hloop : KeyPairUpdater.Update.loop
        ("vcap:" ++ stringsTrimSpace (stringsTrimSuffix (lib.marshalAuthorizedKey publicKey) "\n")
          ++ " vcap")
        project.CommonInstanceMetadata.Items = .returned (items, updated)) :
    ∃ w1 : World,
      w1.keyCalls = w.keyCalls + 1 ∧ w1.projectCalls = w.projectCalls + 1 ∧
      w1.setLog = w.setLog ++
        [{ project.CommonInstanceMetadata with
            Items :=
              if updated then items
              else items ++ [⟨"sshKeys", some ("vcap:" ++ stringsTrimSpace
                (stringsTrimSuffix (lib.marshalAuthorizedKey publicKey) "\n") ++ " vcap")⟩] }] ∧
      k.Update lib w =
        match k.client.SetCommonInstanceMetadata w.setLog.length
          { project.CommonInstanceMetadata with
            Items :=
              if updated then items
              else items ++ [⟨"sshKeys", some ("vcap:" ++ stringsTrimSpace
                (stringsTrimSuffix (lib.marshalAuthorizedKey publicKey) "\n") ++ " vcap")⟩] } with
        | none =>
          (.returned
            ({ PrivateKey := lib.encodePrivateKey rsaKey,
               PublicKey := stringsTrimSuffix (lib.marshalAuthorizedKey publicKey) "\n" }, none),
            w1)
        | some err =>
          if k.retryCount + 1 < 3 then
            KeyPairUpdater.Update lib { k with retryCount := k.retryCount + 1 }
              { w1 with
                randCalls := w1.randCalls + 1
                trace := w1.trace
                  ++ [Event.sleep ((500 + lib.randIntn w1.randCalls 1500) * 1000000)] }
          else
            (.returned (KeyPair.zero, some ("set common instance metadata: " ++ err)), w1) := by
  rw [KeyPairUpdater.Update]
  simp only [KeyPairUpdater.createKeyPair, hrsa, hssh, hproject, hloop]
  cases updated with
  | true =>
    refine ⟨
      { keyCalls := w.keyCalls + 1, projectCalls := w.projectCalls + 1,
        randCalls := w.randCalls,
        setLog := w.setLog ++ [{ project.CommonInstanceMetadata with Items := items }],
        trace := w.trace
          ++ [Event.step "appending new ssh-keys for the project %q" project.Name] },
      rfl, rfl, ?_, ?_⟩
    · simp
    · simp only [if_true, Bool.not_true, Bool.false_eq_true, if_false]
      cases hset : k.client.SetCommonInstanceMetadata w.setLog.length
        { project.CommonInstanceMetadata with Items := items } with
      | none => simp
      | some err => by_cases hr : k.retryCount + 1 < 3 <;> simp [hr]
  | false =>
    refine ⟨
      { keyCalls := w.keyCalls + 1, projectCalls := w.projectCalls + 1,
        randCalls := w.randCalls,
        setLog := w.setLog ++ [{ project.CommonInstanceMetadata with
          Items := items ++ [⟨"sshKeys", some ("vcap:" ++ stringsTrimSpace
            (stringsTrimSuffix (lib.marshalAuthorizedKey publicKey) "\n") ++ " vcap")⟩] }],
        trace := w.trace
          ++ [Event.step "Creating new ssh-keys for the project %q" project.Name] },
      rfl, rfl, ?_, ?_⟩
    · simp
    · simp only [Bool.false_eq_true, if_false, Bool.not_false, if_true]
      cases hset : k.client.SetCommonInstanceMetadata w.setLog.length
        { project.CommonInstanceMetadata with
          Items := items ++ [⟨"sshKeys", some ("vcap:" ++ stringsTrimSpace
            (stringsTrimSuffix (lib.marshalAuthorizedKey publicKey) "\n") ++ " vcap")⟩] } with
      | none => simp
      | some err => by_cases hr : k.retryCount + 1 < 3 <;> simp [hr]

/-! ## The retry is bounded -/

/-- Generating a key pair hands nothing to `SetCommonInstanceMetadata`. -/
theorem KeyPairUpdater.createKeyPair_setLog (lib : Lib κ π) (k : KeyPairUpdater κ π)
    (w : World) : (k.createKeyPair lib w).2.setLog = w.setLog := by
  unfold KeyPairUpdater.createKeyPair
  cases h1 : k.rsaKeyGenerator w.keyCalls with
  | error e => simp
  | ok rsaKey => cases h2 : k.sshPublicKeyGenerator rsaKey <;> simp [h2]

/-- Whatever its collaborators do, `Update` only adds to the metadata handed to
`SetCommonInstanceMetadata`, and adds at most `3 - retryCount` of them (one when the
count is already 3 or more). -/
theorem KeyPairUpdater.Update_setLog (lib : Lib κ π) :
    ∀ (n : Nat) (k : KeyPairUpdater κ π) (w : World), 3 - k.retryCount = n →
      ∃ rest, (k.Update lib w).2.setLog = w.setLog ++ rest ∧ rest.length ≤ max 1 n := by
  intro n
  induction n using Nat.strong_induction_on with
  | _ n ih =>
    intro k w hn
    have hkeys := KeyPairUpdater.createKeyPair_setLog lib k w
    rw [KeyPairUpdater.Update]
    rcases hk : k.createKeyPair lib w with ⟨⟨privateKey, publicKey, err⟩, wk⟩
    rw [hk] at hkeys
    simp only at hkeys
    cases err with
    | some e => exact ⟨[], by simpa using hkeys, by simp⟩
    | none =>
      simp only
      cases hp : k.client.GetProject wk.projectCalls with
      | error e => exact ⟨[], by simpa using hkeys, by simp⟩
      | ok project =>
        simp only
        cases hl : KeyPairUpdater.Update.loop
            ("vcap:" ++ stringsTrimSpace publicKey ++ " vcap")
            project.CommonInstanceMetadata.Items with
        | panicked reason => exact ⟨[], by simpa using hkeys, by simp⟩
        | returned result =>
          rcases result with ⟨items, updated⟩
          simp only
          rw [← hkeys]
          split
          · cases updated <;> exact ⟨_, rfl, by simp⟩
          · by_cases hretry : k.retryCount + 1 < 3
            · rw [dif_pos hretry]
              obtain ⟨rest, hrest, hlen⟩ := ih (3 - (k.retryCount + 1)) (by omega)
                { k with retryCount := k.retryCount + 1 } _ rfl
              rw [hrest]
              have hlen2 : (rest.length + 1) ≤ max 1 n := by omega
              cases updated
              all_goals
                dsimp only
                rw [List.append_assoc]
                exact ⟨_, rfl, by simpa using hlen2⟩
            · rw [dif_neg hretry]
              cases updated <;> exact ⟨_, rfl, by simp⟩

/-- With key generation and `GetProject` succeeding, when the metadata update number
`a` from now is the first to succeed and the retry count leaves room for it, `Update`
returns the key pair generated in that pass after `a + 1` metadata updates. -/
theorem KeyPairUpdater.Update_succeeds_at (lib : Lib κ π) (rsaKey : Nat → κ)
    (publicKey : Nat → π) (project : Nat → Project) (outcome : Nat → Option String)
    (hvalues : ∀ n, ∀ item ∈ (project n).CommonInstanceMetadata.Items,
      item.Key = "sshKeys" → item.Value ≠ none) (a : Nat) :
    ∀ (k : KeyPairUpdater κ π) (w : World),
      (∀ n, k.rsaKeyGenerator n = .ok (rsaKey n)) →
      (∀ n, k.sshPublicKeyGenerator (rsaKey n) = .ok (publicKey n)) →
      (∀ n, k.client.GetProject n = .ok (project n)) →
      (∀ n metadata, k.client.SetCommonInstanceMetadata n metadata = outcome n) →
      k.retryCount + a < 3 →
      (∀ j, j < a → outcome (w.setLog.length + j) ≠ none) →
      outcome (w.setLog.length + a) = none →
      (k.Update lib w).1 =
          .returned
            ({ PrivateKey := lib.encodePrivateKey (rsaKey (w.keyCalls + a)),
               PublicKey :=
                stringsTrimSuffix (lib.marshalAuthorizedKey (publicKey (w.keyCalls + a))) "\n" },
              none) ∧
        (k.Update lib w).2.setLog.length = w.setLog.length + (a + 1) := by
  induction a with
  | zero =>
    intro k w hrsa hssh hproject hset _ _ hok
    obtain ⟨⟨items, updated⟩, hloop⟩ := KeyPairUpdater.Update.loop_returns
      ("vcap:" ++ stringsTrimSpace
        (stringsTrimSuffix (lib.marshalAuthorizedKey (publicKey w.keyCalls)) "\n") ++ " vcap")
      (project w.projectCalls).CommonInstanceMetadata.Items (hvalues w.projectCalls)
    obtain ⟨w1, _, _, hlog, hstep⟩ := KeyPairUpdater.Update_step lib k w (rsaKey w.keyCalls)
      (publicKey w.keyCalls) (project w.projectCalls) items updated (hrsa _) (hssh _)
      (hproject _) hloop
    rw [hstep, hset, Nat.add_zero] at *
    rw [hok]
    simp [hlog]
  | succ a ih =>
    intro k w hrsa hssh hproject hset hroom hfail hok
    obtain ⟨⟨items, updated⟩, hloop⟩ := KeyPairUpdater.Update.loop_returns
      ("vcap:" ++ stringsTrimSpace
        (stringsTrimSuffix (lib.marshalAuthorizedKey (publicKey w.keyCalls)) "\n") ++ " vcap")
      (project w.projectCalls).CommonInstanceMetadata.Items (hvalues w.projectCalls)
    obtain ⟨w1, hkeys, _, hlog, hstep⟩ := KeyPairUpdater.Update_step lib k w
      (rsaKey w.keyCalls) (publicKey w.keyCalls) (project w.projectCalls) items updated
      (hrsa _) (hssh _) (hproject _) hloop
    have h0 := hfail 0 (Nat.succ_pos a)
    rw [Nat.add_zero] at h0
    rw [hstep, hset]
    cases hout : outcome w.setLog.length with
    | none => exact absurd hout h0
    | some err =>
      have hretry : k.retryCount + 1 < 3 := by omega
      simp only [hretry, if_true]
      have hlen : w1.setLog.length = w.setLog.length + 1 := by simp [hlog]
      have hrec := ih { k with retryCount := k.retryCount + 1 }
        { w1 with
          randCalls := w1.randCalls + 1
          trace := w1.trace
            ++ [Event.sleep ((500 + lib.randIntn w1.randCalls 1500) * 1000000)] }
        hrsa hssh hproject hset (by simp only; omega)
        (fun j hj => by
          have := hfail (j + 1) (Nat.succ_lt_succ hj)
          simp only [hlen]
          rwa [Nat.add_assoc, Nat.add_comm 1 j])
        (by simp only [hlen]; rwa [Nat.add_assoc, Nat.add_comm 1 a])
      simp only [hlen] at hrec
      have e1 : w1.keyCalls + a = w.keyCalls + (a + 1) := by omega
      have e2 : w.setLog.length + 1 + (a + 1) = w.setLog.length + (a + 1 + 1) := by omega
      rw [e1, e2] at hrec
      exact hrec

/-- With key generation and `GetProject` succeeding, when `a` retries are left and the
next `a + 1` metadata updates all fail, `Update` gives up after them with the error of
the last one and an empty key pair. -/
theorem KeyPairUpdater.Update_gives_up (lib : Lib κ π) (rsaKey : Nat → κ)
    (publicKey : Nat → π) (project : Nat → Project) (outcome : Nat → Option String)
    (hvalues : ∀ n, ∀ item ∈ (project n).CommonInstanceMetadata.Items,
      item.Key = "sshKeys" → item.Value ≠ none) (a : Nat) :
    ∀ (k : KeyPairUpdater κ π) (w : World) (err : String),
      (∀ n, k.rsaKeyGenerator n = .ok (rsaKey n)) →
      (∀ n, k.sshPublicKeyGenerator (rsaKey n) = .ok (publicKey n)) →
      (∀ n, k.client.GetProject n = .ok (project n)) →
      (∀ n metadata, k.client.SetCommonInstanceMetadata n metadata = outcome n) →
      k.retryCount + a = 2 →
      (∀ j, j < a → outcome (w.setLog.length + j) ≠ none) →
      outcome (w.setLog.length + a) = some err →
      (k.Update lib w).1 =
          .returned (KeyPair.zero, some ("set common instance metadata: " ++ err)) ∧
        (k.Update lib w).2.setLog.length = w.setLog.length + (a + 1) := by
  induction a with
  | zero =>
    intro k w err hrsa hssh hproject hset hcount _ hlast
    obtain ⟨⟨items, updated⟩, hloop⟩ := KeyPairUpdater.Update.loop_returns
      ("vcap:" ++ stringsTrimSpace
        (stringsTrimSuffix (lib.marshalAuthorizedKey (publicKey w.keyCalls)) "\n") ++ " vcap")
      (project w.projectCalls).CommonInstanceMetadata.Items (hvalues w.projectCalls)
    obtain ⟨w1, _, _, hlog, hstep⟩ := KeyPairUpdater.Update_step lib k w (rsaKey w.keyCalls)
      (publicKey w.keyCalls) (project w.projectCalls) items updated (hrsa _) (hssh _)
      (hproject _) hloop
    rw [hstep, hset, Nat.add_zero] at *
    rw [hlast]
    have hretry : ¬ k.retryCount + 1 < 3 := by omega
    simp [hretry, hlog]
  | succ a ih =>
    intro k w err hrsa hssh hproject hset hcount hfail hlast
    obtain ⟨⟨items, updated⟩, hloop⟩ := KeyPairUpdater.Update.loop_returns
      ("vcap:" ++ stringsTrimSpace
        (stringsTrimSuffix (lib.marshalAuthorizedKey (publicKey w.keyCalls)) "\n") ++ " vcap")
      (project w.projectCalls).CommonInstanceMetadata.Items (hvalues w.projectCalls)
    obtain ⟨w1, _, _, hlog, hstep⟩ := KeyPairUpdater.Update_step lib k w
      (rsaKey w.keyCalls) (publicKey w.keyCalls) (project w.projectCalls) items updated
      (hrsa _) (hssh _) (hproject _) hloop
    have h0 := hfail 0 (Nat.succ_pos a)
    rw [Nat.add_zero] at h0
    rw [hstep, hset]
    cases hout : outcome w.setLog.length with
    | none => exact absurd hout h0
    | some err0 =>
      have hretry : k.retryCount + 1 < 3 := by omega
      simp only [hretry, if_true]
      have hlen : w1.setLog.length = w.setLog.length + 1 := by simp [hlog]
      have hrec := ih { k with retryCount := k.retryCount + 1 }
        { w1 with
          randCalls := w1.randCalls + 1
          trace := w1.trace
            ++ [Event.sleep ((500 + lib.randIntn w1.randCalls 1500) * 1000000)] }
        err hrsa hssh hproject hset (by simp only; omega)
        (fun j hj => by
          have := hfail (j + 1) (Nat.succ_lt_succ hj)
          simp only [hlen]
          rwa [Nat.add_assoc, Nat.add_comm 1 j])
        (by simp only [hlen]; rwa [Nat.add_assoc, Nat.add_comm 1 a])
      simp only [hlen] at hrec
      have e2 : w.setLog.length + 1 + (a + 1) = w.setLog.length + (a + 1 + 1) := by omega
      rw [e2] at hrec
      exact hrec

/-- C17: for an updater whose `retryCount` starts at 0, with key generation and
`GetProject` succeeding (and every `sshKeys` item holding a value), `Update` hands
metadata to `SetCommonInstanceMetadata` at most 3 times; it returns the key pair
generated in the first pass whose metadata update succeeds, and after 3 consecutive
failures returns "set common instance metadata: <third error>" with an empty key
pair. -/
theorem KeyPairUpdater.Update_retry_bounded (lib : Lib κ π) (k : KeyPairUpdater κ π)
    (w : World) (rsaKey : Nat → κ) (publicKey : Nat → π) (project : Nat → Project)
    (outcome : Nat → Option String)
    (hcount : k.retryCount = 0)
    (hrsa : ∀ n, k.rsaKeyGenerator n = .ok (rsaKey n))
    (hssh : ∀ n, k.sshPublicKeyGenerator (rsaKey n) = .ok (publicKey n))
    (hproject : ∀ n, k.client.GetProject n = .ok (project n))
    (hvalues : ∀ n, ∀ item ∈ (project n).CommonInstanceMetadata.Items,
      item.Key = "sshKeys" → item.Value ≠ none)
    (hset : ∀ n metadata, k.client.SetCommonInstanceMetadata n metadata = outcome n) :
    (∃ rest, (k.Update lib w).2.setLog = w.setLog ++ rest ∧ rest.length ≤ 3) ∧
    (∀ a, a < 3 → (∀ j, j < a → outcome (w.setLog.length + j) ≠ none) →
      outcome (w.setLog.length + a) = none →
      (k.Update lib w).1 =
          .returned
            ({ PrivateKey := lib.encodePrivateKey (rsaKey (w.keyCalls + a)),
               PublicKey :=
                stringsTrimSuffix (lib.marshalAuthorizedKey (publicKey (w.keyCalls + a))) "\n" },
              none) ∧
        (k.Update lib w).2.setLog.length = w.setLog.length + (a + 1)) ∧
    (∀ err, (∀ j, j < 3 → outcome (w.setLog.length + j) ≠ none) →
      outcome (w.setLog.length + 2) = some err →
      (k.Update lib w).1 =
          .returned (KeyPair.zero, some ("set common instance metadata: " ++ err)) ∧
        (k.Update lib w).2.setLog.length = w.setLog.length + 3) := by
  refine ⟨?_, fun a ha hfail hok => ?_, fun err hfail hlast => ?_⟩
  · obtain ⟨rest, hrest, hlen⟩ := KeyPairUpdater.Update_setLog lib 3 k w (by omega)
    exact ⟨rest, hrest, by simpa using hlen⟩
  · exact KeyPairUpdater.Update_succeeds_at lib rsaKey publicKey project outcome hvalues a k w
      hrsa hssh hproject hset (by omega) hfail hok
  · exact KeyPairUpdater.Update_gives_up lib rsaKey publicKey project outcome hvalues 2 k w err
      hrsa hssh hproject hset (by omega) (fun j hj => hfail j (by omega)) hlast

/-- Witness of C17: with three failing metadata updates `Update` gives up after the
third with its error; with two it returns the key pair of the third pass. -/
theorem KeyPairUpdater.Update_retry_bounded_witness :
    (((someUpdater 3).Update plainLib freshWorld).1 =
        .returned (KeyPair.zero, some "set common instance metadata: third failure") ∧
      ((someUpdater 3).Update plainLib freshWorld).2.setLog.length = 3) ∧
    (((someUpdater 2).Update plainLib freshWorld).1 =
        .returned
          ({ PrivateKey := "RSA PRIVATE KEY key-2", PublicKey := "ssh-rsa public key-2" }, none) ∧
      ((someUpdater 2).Update plainLib freshWorld).2.setLog.length = 3) :=
  ⟨(KeyPairUpdater.Update_retry_bounded plainLib (someUpdater 3) freshWorld someKey
      (fun n => "public " ++ someKey n) (fun _ => someProject) (someOutcome 3) rfl
      (fun _ => rfl) (fun _ => rfl) (fun _ => rfl)
      (fun _ item hitem hkey => by
        simp only [someProject, List.mem_cons, List.mem_singleton, List.not_mem_nil,
          or_false] at hitem
        rcases hitem with h | h | h <;> subst h <;> simp at hkey ⊢)
      (fun _ _ => rfl)).2.2 "third failure" (by decide) rfl,
    (KeyPairUpdater.Update_retry_bounded plainLib (someUpdater 2) freshWorld someKey
      (fun n => "public " ++ someKey n) (fun _ => someProject) (someOutcome 2) rfl
      (fun _ => rfl) (fun _ => rfl) (fun _ => rfl)
      (fun _ item hitem hkey => by
        simp only [someProject, List.mem_cons, List.mem_singleton, List.not_mem_nil,
          or_false] at hitem
        rcases hitem with h | h | h <;> subst h <;> simp at hkey ⊢)
      (fun _ _ => rfl)).2.1 2 (by decide) (by decide) rfl⟩

/-! ## The metadata handed over -/

/-- In a pass of `Update` that reaches the metadata update, the metadata built in that
pass is the next one handed to `SetCommonInstanceMetadata`. -/
theorem KeyPairUpdater.Update_hands_over (lib : Lib κ π) (k : KeyPairUpdater κ π) (w : World)
    (rsaKey : κ) (publicKey : π) (project : Project) (items : List MetadataItems)
    (updated : Bool)
    (hrsa : k.rsaKeyGenerator w.keyCalls = .ok rsaKey)
    (hssh : k.sshPublicKeyGenerator rsaKey = .ok publicKey)
    (hproject : k.client.GetProject w.projectCalls = .ok project)
    (hloop : KeyPairUpdater.Update.loop
        ("vcap:" ++ stringsTrimSpace (stringsTrimSuffix (lib.marshalAuthorizedKey publicKey) "\n")
          ++ " vcap")
        project.CommonInstanceMetadata.Items = .returned (items, updated)) :
    ∃ rest, (k.Update lib w).2.setLog = w.setLog ++
      { project.CommonInstanceMetadata with
          Items :=
            if updated then items
            else items ++ [⟨"sshKeys", some ("vcap:" ++ stringsTrimSpace
              (stringsTrimSuffix (lib.marshalAuthorizedKey publicKey) "\n") ++ " vcap")⟩] }
        :: rest := by
  obtain ⟨w1, _, _, hlog, hstep⟩ := KeyPairUpdater.Update_step lib k w rsaKey publicKey
    project items updated hrsa hssh hproject hloop
  rw [hstep]
  split
  · exact ⟨[], by simp [hlog]⟩
  · by_cases hretry : k.retryCount + 1 < 3
    · rw [if_pos hretry]
      obtain ⟨rest, hrest, _⟩ := KeyPairUpdater.Update_setLog lib _
        { k with retryCount := k.retryCount + 1 }
        { w1 with
          randCalls := w1.randCalls + 1
          trace := w1.trace
            ++ [Event.sleep ((500 + lib.randIntn w1.randCalls 1500) * 1000000)] } rfl
      exact ⟨rest, by rw [hrest]; simp [hlog]⟩
    · rw [if_neg hretry]
      exact ⟨[], by simp [hlog]⟩

/-- C18: `Update` neither drops nor alters existing project metadata. When the key pair
is generated and the project fetched, the item list handed to
`SetCommonInstanceMetadata` is the project's list with every item unchanged except the
first one keyed `sshKeys`: if there is none, exactly one `sshKeys` item holding
"vcap:<trimmed public key> vcap" is appended at the end; if there is one (holding a
value), its new value is the old value, a newline and that key line. Fingerprint and
kind are handed over unchanged. Only when that first `sshKeys` item has a `nil` value
is nothing handed over: the dereference panics. -/
theorem KeyPairUpdater.Update_preserves_metadata (lib : Lib κ π) (k : KeyPairUpdater κ π)
    (w : World) (rsaKey : κ) (publicKey : π) (project : Project)
    (hrsa : k.rsaKeyGenerator w.keyCalls = .ok rsaKey)
    (hssh : k.sshPublicKeyGenerator rsaKey = .ok publicKey)
    (hproject : k.client.GetProject w.projectCalls = .ok project) :
    ((∀ item ∈ project.CommonInstanceMetadata.Items, item.Key ≠ "sshKeys") →
      ∃ rest, (k.Update lib w).2.setLog = w.setLog ++
        { Fingerprint := project.CommonInstanceMetadata.Fingerprint,
          Items := project.CommonInstanceMetadata.Items ++
            [⟨"sshKeys", some ("vcap:" ++ stringsTrimSpace
              (stringsTrimSuffix (lib.marshalAuthorizedKey publicKey) "\n") ++ " vcap")⟩],
          Kind := project.CommonInstanceMetadata.Kind } :: rest) ∧
    (∀ pre item post old,
      project.CommonInstanceMetadata.Items = pre ++ item :: post →
      (∀ i ∈ pre, i.Key ≠ "sshKeys") → item.Key = "sshKeys" → item.Value = some old →
      ∃ rest, (k.Update lib w).2.setLog = w.setLog ++
        { Fingerprint := project.CommonInstanceMetadata.Fingerprint,
          Items := pre ++
            ⟨"sshKeys", some (old ++ "\n" ++ ("vcap:" ++ stringsTrimSpace
              (stringsTrimSuffix (lib.marshalAuthorizedKey publicKey) "\n") ++ " vcap"))⟩
              :: post,
          Kind := project.CommonInstanceMetadata.Kind } :: rest) ∧
    (∀ pre item post,
      project.CommonInstanceMetadata.Items = pre ++ item :: post →
      (∀ i ∈ pre, i.Key ≠ "sshKeys") → item.Key = "sshKeys" → item.Value = none →
      (k.Update lib w).1 = .panicked Go.nilDereference ∧
        (k.Update lib w).2.setLog = w.setLog) := by
  refine ⟨?_, ?_, ?_⟩
  · intro habsent
    have hloop := KeyPairUpdater.Update.loop_of_absent
      ("vcap:" ++ stringsTrimSpace (stringsTrimSuffix (lib.marshalAuthorizedKey publicKey) "\n")
        ++ " vcap") _ habsent
    obtain ⟨rest, hrest⟩ := KeyPairUpdater.Update_hands_over lib k w rsaKey publicKey project
      _ false hrsa hssh hproject hloop
    exact ⟨rest, by simpa using hrest⟩
  · intro pre item post old hitems hpre hkey hvalue
    have hloop := KeyPairUpdater.Update.loop_of_present
      ("vcap:" ++ stringsTrimSpace (stringsTrimSuffix (lib.marshalAuthorizedKey publicKey) "\n")
        ++ " vcap") item post old hkey hvalue pre hpre
    rw [← hitems] at hloop
    obtain ⟨rest, hrest⟩ := KeyPairUpdater.Update_hands_over lib k w rsaKey publicKey project
      _ true hrsa hssh hproject hloop
    exact ⟨rest, by simpa using hrest⟩
  · intro pre item post hitems hpre hkey hvalue
    have hloop := KeyPairUpdater.Update.loop_of_nil
      ("vcap:" ++ stringsTrimSpace (stringsTrimSuffix (lib.marshalAuthorizedKey publicKey) "\n")
        ++ " vcap") item post hkey hvalue pre hpre
    rw [← hitems] at hloop
    rw [KeyPairUpdater.Update]
    simp [KeyPairUpdater.createKeyPair, hrsa, hssh, hproject, hloop]

/-- Witness of C18: a project with an item before its `sshKeys` item and one after. -/
theorem KeyPairUpdater.Update_preserves_metadata_witness :
    ∃ rest, ((someUpdater 0).Update plainLib freshWorld).2.setLog = freshWorld.setLog ++
      { Fingerprint := "some-fingerprint",
        Items := [⟨"some-key", some "some-value"⟩] ++
          ⟨"sshKeys", some ("someone:ssh-rsa AAAA someone" ++ "\n"
            ++ "vcap:ssh-rsa public key-0 vcap")⟩
            :: [⟨"some-other-key", some "some-other-value"⟩],
        Kind := "compute#metadata" } :: rest :=
  (KeyPairUpdater.Update_preserves_metadata plainLib (someUpdater 0) freshWorld "key-0"
    "public key-0" someProject rfl rfl rfl).2.1 [⟨"some-key", some "some-value"⟩]
    ⟨"sshKeys", some "someone:ssh-rsa AAAA someone"⟩
    [⟨"some-other-key", some "some-other-value"⟩] "someone:ssh-rsa AAAA someone" rfl
    (fun i hi => by
      simp only [List.mem_singleton] at hi
      subst hi
      decide)
    rfl rfl

end Gcp
